import Mathlib

/-!
# SFS metadata layer of the S3 gateway (s3gw-ceph, `rgw/driver/sfs/sqlite`)

A shallow embedding of the relational metadata layer and of the bucket listing
built on it.

* Tables are lists of rows in the order a scan yields them; a
  `SELECT ... WHERE col = ?` is the sub-list of the rows whose column equals the
  bound value.
* `std::string` is a list of bytes, compared bytewise (`std::string::operator<`,
  SQLite's BINARY collation).
* `std::vector<char>` blobs are lists of bytes; `ceph::encode` / `ceph::decode`
  of a registered type are parameters (`BufferCodec`).
* A call that can throw or abort returns an `Outcome`; a method that changes the
  store takes the tables and returns the new tables, and `run_statements`
  executes its statements one by one, with a failure at a chosen statement.
* `uint64_t` and `int64_t` values are integers; conversions between the two reduce
  modulo 2^64 (`as_uint64`, `as_int64`).
* The LIKE operator is the matcher of SQLite on bytes (`patternCompare`), with the case
  handling of the connection as a parameter.
-/

namespace sfs

/-! ## Strings and bytes -/

/-- A `std::string`: a sequence of bytes. -/
abbrev std_string := List UInt8

/-- The UTF-8 bytes of a literal, to write concrete names. -/
def bytes (s : String) : std_string := s.toUTF8.data.toList

/-- Bytewise lexicographic "less than" of `std::string::operator<` (and of SQLite's
BINARY collation): the first differing byte decides, a proper prefix is smaller. -/
def string_lt : std_string → std_string → Bool
  | _, [] => false
  | [], _ :: _ => true
  | a :: as, b :: bs => decide (a < b) || (a == b && string_lt as bs)

/-- The method `std::string::starts_with`: `pfx` is an initial segment of `s`, byte for byte. -/
def starts_with (s pfx : std_string) : Bool := pfx.isPrefixOf s

/-- A blob holder (`std::vector<char>`): a sequence of bytes. -/
abbrev blob := List UInt8

/-- A `bufferlist`, as the sequence of the bytes it holds. -/
abbrev bufferlist := List UInt8

/-! ## Objects table (`objects/object_definitions.h`, `sqlite_objects.cc`) -/

/-- The identifier type `uuid_d` (128 bits), kept abstract as a number. -/
structure uuid_d where
  uuid : Nat
deriving DecidableEq, Repr

/-- Row type `DBObject::DBObjectQueryResult`: the columns (uuid, bucket_id, name) of one
row of the `objects` table, in column order. -/
abbrev DBObjectQueryResult := uuid_d × std_string × std_string

/-- The record `DBObject`. -/
structure DBObject where
  uuid : uuid_d
  bucket_id : std_string
  name : std_string
deriving DecidableEq, Repr

/-- Row constructor `DBObject::DBObject(DBObjectQueryResult&&)`: column 0 is the uuid,
column 1 the bucket id, column 2 the name. -/
def DBObject.ofQueryResult (values : DBObjectQueryResult) : DBObject :=
  { uuid := values.1, bucket_id := values.2.1, name := values.2.2 }

/-- Modelled from the spec: the lifecycle tag of a version (`rgw::sal::sfs::ObjectState`;
its declaration is not among the sources, the tests only name `COMMITTED`). The spec
lists "pending / committed / deleted-marker". -/
inductive ObjectState where
  | PENDING
  | COMMITTED
  | DELETED_MARKER
deriving DecidableEq, Repr

/-- Modelled from the spec: a row of the `versioned_objects` table (`DBVersionedObject`;
`versioned_object_definitions.h` is not among the sources): version id, owning object
uuid, mtime, etag, size, object state. -/
structure DBVersionedObject where
  id : Nat
  object_id : uuid_d
  mtime : Nat
  etag : std_string
  size : Nat
  object_state : ObjectState
deriving DecidableEq, Repr

/-- A row of the `users` table as stored: one nullable value per column, in the column
order of the `REPLACE INTO users (...)` statement of `SQLiteUsers::store_user` (the order
of `DBUserQueryResult`). Text columns hold a string, integer columns an integer, blob
columns the encoded bytes; `none` is SQL NULL. -/
structure UsersRow where
  user_id : std_string
  tenant : Option std_string
  ns : Option std_string
  display_name : Option std_string
  user_email : Option std_string
  access_keys : Option blob
  swift_keys : Option blob
  sub_users : Option blob
  suspended : Option Int
  max_buckets : Option Int
  op_mask : Option Int
  user_caps : Option blob
  admin : Option Int
  system : Option Int
  placement_name : Option std_string
  placement_storage_class : Option std_string
  placement_tags : Option blob
  bucket_quota : Option blob
  temp_url_keys : Option blob
  user_quota : Option blob
  type : Option Int
  mfa_ids : Option blob
  assumed_role_arn : Option std_string
  user_attrs : Option blob
  user_version : Option Int
  user_version_tag : Option std_string
deriving DecidableEq, Repr

/-- A row of the `access_keys` table: the two columns the statements of `sqlite_users.cc`
name, `access_key` and `user_id` (the `id` of `DBAccessKey` is assigned by the store and
read by no query). -/
structure DBAccessKey where
  access_key : std_string
  user_id : std_string
deriving DecidableEq, Repr

/-- The tables of the store. Each table is the list of its rows in the order they were
written (a later row was written later). -/
structure Database where
  objects : List DBObjectQueryResult := []
  versioned_objects : List DBVersionedObject := []
  users : List UsersRow := []
  access_keys : List DBAccessKey := []

/-- Helper `GetSQLiteObjectsWhere<Target>` of `sqlite_query_utils.h`: run
`SELECT * FROM table WHERE column = ?` with `column_value` bound, then append
`Target(row)` to the result vector for every row of the answer, in order. -/
def GetSQLiteObjectsWhere {Row Target ColumWhereType : Type} [DecidableEq ColumWhereType]
    (table : List Row) (column : Row → ColumWhereType) (mk : Row → Target)
    (column_value : ColumWhereType) : List Target :=
  let rows := table.filter (fun row => decide (column row = column_value))
  rows.foldl (fun ret row => ret ++ [mk row]) []

/-- The method `SQLiteObjects::get_objects(bucket_id)`:
`GetSQLiteObjectsWhere<DBObject>(conn, "objects", "bucket_id", bucket_id)`. -/
def SQLiteObjects.get_objects (db : Database) (bucket_id : std_string) : List DBObject :=
  GetSQLiteObjectsWhere db.objects (fun row => row.2.1) DBObject.ofQueryResult bucket_id

/-! ## Listing engine (`SQLiteList::objects`) -/

/-- The key of a listing entry (`rgw_bucket_dir_entry::key`): the fields the tests read. -/
structure cls_rgw_obj_key where
  name : std_string
deriving DecidableEq, Repr

/-- The metadata of a listing entry (`rgw_bucket_dir_entry::meta`): the fields the tests read. -/
structure rgw_bucket_dir_entry_meta where
  mtime : Nat
  etag : std_string
  size : Nat
  accounted_size : Nat
deriving DecidableEq, Repr

/-- A listing entry (`rgw_bucket_dir_entry`). -/
structure rgw_bucket_dir_entry where
  key : cls_rgw_obj_key
  meta : rgw_bucket_dir_entry_meta
deriving DecidableEq, Repr

/-- Modelled from the spec: a version is visible to listings when its state is
committed ("Listing visibility considers only VersionedObjects in a visible state"). -/
def visible (v : DBVersionedObject) : Bool := decide (v.object_state = ObjectState.COMMITTED)

/-- Modelled from the spec: the versions of object `o` that are visible, in the order
they were written. -/
def visible_versions (versions : List DBVersionedObject) (o : DBObject) :
    List DBVersionedObject :=
  versions.filter (fun v => decide (v.object_id = o.uuid) && visible v)

/-- Modelled from the spec: the authoritative version of an object, "the most recently
written" of its visible versions; none when it has no visible version. -/
def authoritative_version (versions : List DBVersionedObject) (o : DBObject) :
    Option DBVersionedObject :=
  (visible_versions versions o).getLast?

/-- Modelled from the spec: the entry carried for an object, "key name, mtime, etag, size,
and accounted size (equal to size in the single-part case) sourced from the
authoritative VersionedObject". -/
def make_entry (o : DBObject) (v : DBVersionedObject) : rgw_bucket_dir_entry :=
  { key := { name := o.name },
    meta := { mtime := v.mtime, etag := v.etag, size := v.size, accounted_size := v.size } }

/-- Modelled from the spec: steps 1 and 2 of the listing algorithm. Select all objects
of the bucket (through `SQLiteObjects::get_objects`) and pair each with its authoritative
version; objects with no visible version are excluded. -/
def resolve_objects (db : Database) (bucket_id : std_string) :
    List (DBObject × DBVersionedObject) :=
  (SQLiteObjects.get_objects db bucket_id).filterMap
    (fun o => (authoritative_version db.versioned_objects o).map (fun v => (o, v)))

/-- Modelled from the spec: step 3, "keep entries whose name starts with prefix (empty
prefix matches all)". -/
def filter_by_pfx (pfx : std_string) (l : List (DBObject × DBVersionedObject)) :
    List (DBObject × DBVersionedObject) :=
  l.filter (fun p => starts_with p.1.name pfx)

/-- The order of step 4 on rows: by name, bytewise, ascending. -/
def name_le (a b : DBObject × DBVersionedObject) : Prop := string_lt b.1.name a.1.name = false

instance name_le_decidable : DecidableRel name_le :=
  fun a b => inferInstanceAs (Decidable (string_lt b.1.name a.1.name = false))

/-- Modelled from the spec: step 4, "order the filtered set by name, byte-lexicographic
ascending". -/
def order_by_name (l : List (DBObject × DBVersionedObject)) :
    List (DBObject × DBVersionedObject) :=
  l.insertionSort name_le

/-- Modelled from the spec: step 5, "if start_after is non-empty, discard all entries
with name ≤ start_after". -/
def discard_up_to_marker (start_after : std_string)
    (l : List (DBObject × DBVersionedObject)) : List (DBObject × DBVersionedObject) :=
  if start_after.isEmpty then l else l.filter (fun p => string_lt start_after p.1.name)

/-- Modelled from the spec: the ordered sequence that remains after steps 1 to 5. -/
def remaining_rows (db : Database) (bucket_id pfx start_after : std_string) :
    List (DBObject × DBVersionedObject) :=
  discard_up_to_marker start_after (order_by_name (filter_by_pfx pfx (resolve_objects db bucket_id)))

/-- The outcome of a listing call: the return value of `SQLiteList::objects` (the tests
assert it is true), the entries appended to the result vector, and the flag written
through `out_more_available`. -/
structure ListResult where
  ok : Bool
  results : List rgw_bucket_dir_entry
  truncated : Bool
deriving DecidableEq, Repr

/-- Modelled from the spec: the listing operation `SQLiteList::objects(bucket_id, prefix,
start_after, max, results, more_avail)` (`sqlite_list.cc` is not among the sources; the
tests call it). Steps 1 to 5 give the remaining ordered sequence; step 6 takes at most
`max` entries of it; step 7 sets `truncated` when strictly more entries exist beyond the
ones returned. -/
def SQLiteList.objects (db : Database) (bucket_id pfx start_after : std_string) (max : Nat) :
    ListResult :=
  let remaining := remaining_rows db bucket_id pfx start_after
  let taken := remaining.take max
  { ok := true,
    results := taken.map (fun p => make_entry p.1 p.2),
    truncated := decide (taken.length < remaining.length) }

/-- The `encode` / `decode` pair of one registered blob type (`ceph::encode`,
`ceph::decode`, or the overloads found outside the `ceph` namespace); their bodies are
not part of this layer and are parameters. `encode v bl` is the bufferlist after
`encode(v, bl)`; `decode dest bl` is the new value of `dest` after `decode(dest, bl)`, or
the message of the `buffer::error` it throws. -/
structure BufferCodec (T : Type) where
  encode : T → bufferlist → bufferlist
  decode : T → bufferlist → Except String T

/-- The call `std::copy(first, last, std::back_inserter(dest))`: push the bytes of the
source, one by one and in order, onto the back of `dest`. -/
def copy_back_inserter (src : List UInt8) (dest : blob) : blob :=
  src.foldl (fun d c => d ++ [c]) dest

/-- The call `buffer.append(data, data_size)` on a bufferlist. -/
def bufferlist_append (buffer : bufferlist) (data : List UInt8) : bufferlist :=
  buffer ++ data

/-- Function template `encode_blob(origin, dest)`: encode `origin` into a fresh
bufferlist, then copy the bytes of the bufferlist onto the back of `dest` (both
overloads have this body; they differ in where `encode` is looked up). -/
def encode_blob {T : Type} (c : BufferCodec T) (origin : T) (dest : blob) : blob :=
  let buffer := c.encode origin []
  copy_back_inserter buffer dest

/-- Function template `decode_blob(blob_holder, dest)`: append the bytes of the holder to
a fresh bufferlist and decode `dest` from it (the overload that takes a pointer and a
size has the same body). -/
def decode_blob {T : Type} (c : BufferCodec T) (blob_holder : blob) (dest : T) :
    Except String T :=
  let buffer := bufferlist_append [] blob_holder
  c.decode dest buffer

/-- A sample codec, a flag stored as one byte, to instantiate statements about codecs. -/
def flag_codec : BufferCodec Bool :=
  { encode := fun v bl => bl ++ [if v then 1 else 0],
    decode := fun _ bl =>
      match bl with
      | [b] => Except.ok (b != 0)
      | _ => Except.error "buffer::malformed_input" }

/-- Function template `assign_value(source, dest)`, the overload for every source type
other than `std::vector<char>`: `dest = source`. The result is the new value of `dest`. -/
def assign_value {α : Type} (source : α) (_dest : α) : α := source

/-- Function template `assign_value(source, dest)`, the overload for a source of type
`std::vector<char>`: `decode_blob(source, dest)`. -/
def assign_value_blob {T : Type} (c : BufferCodec T) (source : blob) (dest : T) :
    Except String T :=
  decode_blob c source dest

/-- Function template `assign_optional_value(optional_value, dest)` for an optional that
holds anything but a byte vector: "if value is not set, do nothing", otherwise
`assign_value(*optional_value, dest)`. -/
def assign_optional_value {α : Type} (optional_value : Option α) (dest : α) : α :=
  match optional_value with
  | none => dest
  | some source => assign_value source dest

/-- Function template `assign_optional_value(optional_value, dest)` for an optional byte
vector: nothing is done when the value is not set, otherwise the byte-vector overload of
`assign_value` decodes into `dest`. -/
def assign_optional_value_blob {T : Type} (c : BufferCodec T) (optional_value : Option blob)
    (dest : T) : Except String T :=
  match optional_value with
  | none => Except.ok dest
  | some source => assign_value_blob c source dest

/-! ## Outcomes of calls that can throw or abort -/

/-- The errno constant `ERANGE` (34 on Linux). -/
def ERANGE : Nat := 34

/-- The C++ exceptions the layer lets escape: the `buffer::error` thrown by a decoder
(with its message), `std::system_error(code, std::system_category(), what)`, and the
exception of the database binding when a statement fails. -/
inductive Exception where
  | buffer_error (what : String)
  | system_error (code : Nat) (what : std_string)
  | sqlite_exception
deriving DecidableEq, Repr

/-- How a call ends: it returns a value, it throws an exception the caller can catch, or
it aborts the process (`ceph_abort_msg`). -/
inductive Outcome (α : Type) where
  | ok (value : α)
  | throws (e : Exception)
  | aborts (msg : std_string)
deriving DecidableEq, Repr

/-- Sequencing: an exception or an abort of the first call ends the whole computation. -/
def Outcome.bind {α β : Type} (x : Outcome α) (f : α → Outcome β) : Outcome β :=
  match x with
  | Outcome.ok value => f value
  | Outcome.throws e => Outcome.throws e
  | Outcome.aborts msg => Outcome.aborts msg

instance Outcome.instMonad : Monad Outcome where
  pure := Outcome.ok
  bind := Outcome.bind

/-- The outcome of a decoder call: its exception is a `buffer::error`. -/
def Outcome.ofDecode {T : Type} (r : Except String T) : Outcome T :=
  match r with
  | Except.ok value => Outcome.ok value
  | Except.error what => Outcome.throws (Exception.buffer_error what)

/-- The decimal text of a column index (`std::to_string`). -/
def to_string (n : Nat) : std_string := bytes (toString n)

/-! ## Blob columns (`bindings/blob.h`) -/

/-- SQLite reports `SQLITE_NULL` as the type of a column exactly when it holds NULL. -/
def sqlite3_column_is_null (col : Option blob) : Bool := col.isNone

/-- The pointer `sqlite3_column_blob` returns: null (`none`) for NULL and, as SQLite
documents, for a zero-length blob; otherwise the bytes of the blob. -/
def sqlite3_column_blob (col : Option blob) : Option (List UInt8) :=
  match col with
  | none => none
  | some [] => none
  | some (b :: bs) => some (b :: bs)

/-- The size `sqlite3_column_bytes` returns: 0 for NULL, else the length of the blob. -/
def sqlite3_column_bytes (col : Option blob) : Int :=
  match col with
  | none => 0
  | some b => b.length

/-- The abort or exception message "Invalid blob at column : (inx)". -/
def invalid_blob_message (inx : Nat) : std_string :=
  bytes "Invalid blob at column : (" ++ to_string inx ++ bytes ")"

/-- The overload `decode_blob(data, data_size, dest)`: the first `data_size` bytes at
`data` are appended to a fresh bufferlist, from which `dest` is decoded. -/
def decode_blob_sized {T : Type} (c : BufferCodec T) (data : List UInt8) (data_size : Nat)
    (dest : T) : Except String T :=
  let buffer := bufferlist_append [] (data.take data_size)
  c.decode dest buffer

/-- Function `get_col_from_db(stmt, inx, result_type<T>)` for a blob type `T`, on the
column value `col`: abort when the column is NULL; abort when the data pointer is null
or the size negative; otherwise decode the bytes into a default-constructed `ret`. -/
def get_col_from_db {T : Type} (c : BufferCodec T) (ret : T) (col : Option blob) (inx : Nat) :
    Outcome T :=
  if sqlite3_column_is_null col then
    Outcome.aborts (bytes "cannot make blob value from NULL")
  else
    let blob_data := sqlite3_column_blob col
    let blob_size := sqlite3_column_bytes col
    match blob_data with
    | none => Outcome.aborts (invalid_blob_message inx)
    | some data =>
      if blob_size < 0 then Outcome.aborts (invalid_blob_message inx)
      else Outcome.ofDecode (decode_blob_sized c data blob_size.toNat ret)

/-- Method `row_extractor<T>::extract(stmt, columnIndex)` for a blob type `T` (the
sqlite_orm binding): throw `std::system_error(ERANGE, ...)` when the data pointer is null
or the size negative; otherwise decode the bytes into a default-constructed `ret`. -/
def row_extractor.extract {T : Type} (c : BufferCodec T) (ret : T) (col : Option blob)
    (columnIndex : Nat) : Outcome T :=
  let blob_data := sqlite3_column_blob col
  let blob_size := sqlite3_column_bytes col
  match blob_data with
  | none => Outcome.throws (Exception.system_error ERANGE (invalid_blob_message columnIndex))
  | some data =>
    if blob_size < 0 then
      Outcome.throws (Exception.system_error ERANGE (invalid_blob_message columnIndex))
    else Outcome.ofDecode (decode_blob_sized c data blob_size.toNat ret)

/-- Modelled from the spec: reading a column into `std::optional<T>` (the wrapper is part
of the database binding, which is not among the sources): "null ⇒ field left untouched,
never invokes the codec", so NULL gives an empty optional and any other value is read as
a `T`. -/
def get_col_from_db_optional {T : Type} (get : Option blob → Nat → Outcome T)
    (col : Option blob) (inx : Nat) : Outcome (Option T) :=
  match col with
  | none => Outcome.ok none
  | some _ => (get col inx).bind (fun value => Outcome.ok (some value))

/-! ## Identifier columns (`bindings/uuid_d.h`) -/

/-- The C string a `const char*` to the data of a `std::string` denotes (`c_str()`): the
bytes before the first zero byte. -/
def c_str (s : std_string) : std_string := s.takeWhile (fun b => b != 0)

/-- The message "incorrect uuid string (text)". -/
def incorrect_uuid_message (text : std_string) : std_string :=
  bytes "incorrect uuid string (" ++ text ++ bytes ")"

/-- Method `row_extractor<uuid_d>::extract(const char* row_value)`. The pointer is `none`
when null, else the C string it points to; `parse` is `uuid_d::parse` (`none` when it
returns false). -/
def row_extractor_uuid_d.extract (parse : std_string → Option uuid_d)
    (row_value : Option std_string) : Outcome uuid_d :=
  match row_value with
  | some text =>
    match parse text with
    | some ret_value => Outcome.ok ret_value
    | none => Outcome.throws (Exception.system_error ERANGE (incorrect_uuid_message text))
  | none => Outcome.throws (Exception.system_error ERANGE (incorrect_uuid_message (bytes "nullptr")))

/-- Methods `row_extractor<uuid_d>::extract(stmt, columnIndex)` and
`extract(sqlite3_value*)`: `sqlite3_column_text` / `sqlite3_value_text` give a null
pointer for NULL and else the text of the column, which is handed on as a C string. -/
def row_extractor_uuid_d.extract_column (parse : std_string → Option uuid_d)
    (col : Option std_string) : Outcome uuid_d :=
  row_extractor_uuid_d.extract parse (col.map c_str)

/-- Function `get_col_from_db(stmt, inx, result_type<uuid_d>)`, on the string `db_value`
the column was read as: parse `db_value.c_str()`, throw when parsing fails. -/
def get_col_from_db_uuid_d (parse : std_string → Option uuid_d) (db_value : std_string) :
    Outcome uuid_d :=
  match parse (c_str db_value) with
  | some ret_value => Outcome.ok ret_value
  | none => Outcome.throws (Exception.system_error ERANGE (incorrect_uuid_message db_value))

/-- Function `get_val_from_db(value, result_type<uuid_d>)`: the same body as
`get_col_from_db` on the string the value was read as. -/
def get_val_from_db_uuid_d (parse : std_string → Option uuid_d) (db_value : std_string) :
    Outcome uuid_d :=
  match parse (c_str db_value) with
  | some ret_value => Outcome.ok ret_value
  | none => Outcome.throws (Exception.system_error ERANGE (incorrect_uuid_message db_value))

/-! ## User records (`users/users_definitions.h`) -/

/-- The RGW value types the layer stores without looking inside (`RGWAccessKey`,
`RGWSubUser`, `RGWUserCaps`, `RGWQuotaInfo`, declared in `rgw_common.h`): parameters. -/
structure RGWTypes where
  AccessKey : Type
  SubUser : Type
  UserCaps : Type
  QuotaInfo : Type

/-- The user identifier `rgw_user`: the fields the layer reads and writes. -/
structure rgw_user where
  id : std_string
  tenant : std_string
  ns : std_string
deriving DecidableEq, Repr

/-- The placement rule `rgw_placement_rule`. -/
structure rgw_placement_rule where
  name : std_string
  storage_class : std_string
deriving DecidableEq, Repr

/-- The quota pair `RGWQuota` of a user. -/
structure RGWQuota (τ : RGWTypes) where
  user_quota : τ.QuotaInfo
  bucket_quota : τ.QuotaInfo

/-- The version `obj_version`. -/
structure obj_version where
  ver : Int
  tag : std_string
deriving DecidableEq, Repr

/-- The record `RGWUserInfo`: the fields `sqlite_users.cc` and `users_definitions.h` read
and write. A `std::map` is the list of its (key, value) pairs in key order, a `std::set`
and a `std::list` the list of their elements; integers are kept as mathematical
integers. -/
structure RGWUserInfo (τ : RGWTypes) where
  user_id : rgw_user
  display_name : std_string
  user_email : std_string
  access_keys : List (std_string × τ.AccessKey)
  swift_keys : List (std_string × τ.AccessKey)
  subusers : List (std_string × τ.SubUser)
  suspended : Int
  max_buckets : Int
  op_mask : Int
  caps : τ.UserCaps
  admin : Int
  system : Int
  default_placement : rgw_placement_rule
  placement_tags : List std_string
  temp_url_keys : List (Int × std_string)
  quota : RGWQuota τ
  type : Int
  mfa_ids : List std_string

/-- The attribute map `rgw::sal::Attrs` (`std::map<std::string, bufferlist>`). -/
abbrev Attrs := List (std_string × bufferlist)

/-- The record `DBOPUserInfo` the users store receives and returns. -/
structure DBOPUserInfo (τ : RGWTypes) where
  uinfo : RGWUserInfo τ
  user_version : obj_version
  user_attrs : Attrs

/-- The tuple `DBUserQueryResult`: one element per column of the users table, in column
order (element 0 is `user_id`, element 22 `assumed_role_arn`, element 25
`user_version_tag`), with the types of the members of `DBUser`. Blob columns have been
decoded into their value types. -/
structure DBUserQueryResult (τ : RGWTypes) where
  user_id : std_string
  tenant : Option std_string
  ns : Option std_string
  display_name : Option std_string
  user_email : Option std_string
  access_keys : Option (List (std_string × τ.AccessKey))
  swift_keys : Option (List (std_string × τ.AccessKey))
  sub_users : Option (List (std_string × τ.SubUser))
  suspended : Option Int
  max_buckets : Option Int
  op_mask : Option Int
  user_caps : Option τ.UserCaps
  admin : Option Int
  system : Option Int
  placement_name : Option std_string
  placement_storage_class : Option std_string
  placement_tags : Option (List std_string)
  bucket_quota : Option τ.QuotaInfo
  temp_url_keys : Option (List (Int × std_string))
  user_quota : Option τ.QuotaInfo
  type : Option Int
  mfa_ids : Option (List std_string)
  assumed_role_arn : Option std_string
  user_attrs : Option Attrs
  user_version : Option Int
  user_version_tag : Option std_string

/-- Constructor `DBOPUserInfo::DBOPUserInfo(DBUserQueryResult&&)`. The members start as
those of the default-constructed record `dflt`; `std::get<0>` is moved into
`uinfo.user_id.id`, and `assign_optional_value(std::get<i>(values), field)` is applied
for i = 1 .. 21 and 23 .. 25 with the field the source names; element 22
(`assumed_role_arn`) is not read. -/
def DBOPUserInfo.ofQueryResult {τ : RGWTypes} (dflt : DBOPUserInfo τ)
    (values : DBUserQueryResult τ) : DBOPUserInfo τ :=
  { uinfo :=
      { user_id :=
          { id := values.user_id,
            tenant := assign_optional_value values.tenant dflt.uinfo.user_id.tenant,
            ns := assign_optional_value values.ns dflt.uinfo.user_id.ns },
        display_name := assign_optional_value values.display_name dflt.uinfo.display_name,
        user_email := assign_optional_value values.user_email dflt.uinfo.user_email,
        access_keys := assign_optional_value values.access_keys dflt.uinfo.access_keys,
        swift_keys := assign_optional_value values.swift_keys dflt.uinfo.swift_keys,
        subusers := assign_optional_value values.sub_users dflt.uinfo.subusers,
        suspended := assign_optional_value values.suspended dflt.uinfo.suspended,
        max_buckets := assign_optional_value values.max_buckets dflt.uinfo.max_buckets,
        op_mask := assign_optional_value values.op_mask dflt.uinfo.op_mask,
        caps := assign_optional_value values.user_caps dflt.uinfo.caps,
        admin := assign_optional_value values.admin dflt.uinfo.admin,
        system := assign_optional_value values.system dflt.uinfo.system,
        default_placement :=
          { name := assign_optional_value values.placement_name dflt.uinfo.default_placement.name,
            storage_class :=
              assign_optional_value values.placement_storage_class
                dflt.uinfo.default_placement.storage_class },
        placement_tags := assign_optional_value values.placement_tags dflt.uinfo.placement_tags,
        quota :=
          { bucket_quota :=
              assign_optional_value values.bucket_quota dflt.uinfo.quota.bucket_quota,
            user_quota := assign_optional_value values.user_quota dflt.uinfo.quota.user_quota },
        temp_url_keys := assign_optional_value values.temp_url_keys dflt.uinfo.temp_url_keys,
        type := assign_optional_value values.type dflt.uinfo.type,
        mfa_ids := assign_optional_value values.mfa_ids dflt.uinfo.mfa_ids },
    user_attrs := assign_optional_value values.user_attrs dflt.user_attrs,
    user_version :=
      { ver := assign_optional_value values.user_version dflt.user_version.ver,
        tag := assign_optional_value values.user_version_tag dflt.user_version.tag } }

/-- The `encode` / `decode` pairs of the blob types of the users table, one per C++
type: `std::map<std::string, RGWAccessKey>`, `std::map<std::string, RGWSubUser>`,
`RGWUserCaps`, `std::list<std::string>`, `RGWQuotaInfo`, `std::map<int, std::string>`,
`std::set<std::string>` and `rgw::sal::Attrs`. -/
structure UserCodecs (τ : RGWTypes) where
  access_key_map : BufferCodec (List (std_string × τ.AccessKey))
  sub_user_map : BufferCodec (List (std_string × τ.SubUser))
  user_caps : BufferCodec τ.UserCaps
  string_list : BufferCodec (List std_string)
  quota_info : BufferCodec τ.QuotaInfo
  int_string_map : BufferCodec (List (Int × std_string))
  string_set : BufferCodec (List std_string)
  attrs : BufferCodec Attrs

/-- What the row reader takes from outside this layer: the values of a
default-constructed `RGWUserCaps` and `RGWQuotaInfo` (the `T ret;` of the blob readers;
the containers default to empty), and how the database binding reads a stored integer
into a C++ `int` and into an `unsigned char`, the integer types of the members of
`DBUser`. -/
structure ColumnBinding (τ : RGWTypes) where
  user_caps : τ.UserCaps
  quota_info : τ.QuotaInfo
  as_int : Int → Int
  as_unsigned_char : Int → Int

/-! ## Single-row lookups (`sqlite_query_utils.h`, `sqlite_objects.cc`) -/

/-- The SQL condition `column = ?`: it holds when neither the column nor the bound value
is NULL and the two values are equal. -/
def sql_eq {α : Type} [DecidableEq α] (column bound : Option α) : Bool :=
  match column, bound with
  | some a, some b => decide (a = b)
  | _, _ => false

/-- Helper `GetSQLiteSingleObject<Target>` of `sqlite_query_utils.h`: run
`SELECT * FROM table WHERE key = ?` with `key_value` bound; the loop over the answer
builds `Target(row)` from the first row and breaks, so the result is empty when the
answer has no row. Building the target can throw or abort. -/
def GetSQLiteSingleObject {Row Target KeyType : Type} [DecidableEq KeyType]
    (table : List Row) (key : Row → Option KeyType) (mk : Row → Outcome Target)
    (key_value : Option KeyType) : Outcome (Option Target) :=
  let rows := table.filter (fun row => sql_eq (key row) key_value)
  match rows with
  | [] => Outcome.ok none
  | row :: _ => (mk row).bind (fun target => Outcome.ok (some target))

/-- The method `SQLiteObjects::get_object(uuid)`:
`GetSQLiteSingleObject<DBObject>(conn, "objects", "uuid", uuid.to_string())`. The text
form `uuid_d::to_string` is a parameter. -/
def SQLiteObjects.get_object (uuid_to_string : uuid_d → std_string) (db : Database)
    (uuid : uuid_d) : Outcome (Option DBObject) :=
  GetSQLiteSingleObject db.objects (fun row => some (uuid_to_string row.1))
    (fun row => Outcome.ok (DBObject.ofQueryResult row)) (some (uuid_to_string uuid))

/-- The method `SQLiteObjects::get_object(bucket_id, object_name)`: run
`SELECT * FROM objects WHERE bucket_id = ? AND name = ?`; the loop over the answer takes
`DBObject(row)` of the first row and breaks. -/
def SQLiteObjects.get_object_by_name (db : Database) (bucket_id object_name : std_string) :
    Option DBObject :=
  let rows := db.objects.filter
    (fun row => decide (row.2.1 = bucket_id) && decide (row.2.2 = object_name))
  match rows with
  | [] => none
  | row :: _ => some (DBObject.ofQueryResult row)

/-! ## Users store (`sqlite_users.cc`) -/

/-- Function `bind_col_in_db(stmt, inx, val)` of `bindings/blob.h` for a blob type:
`encode_blob(val, blobValue)` into a fresh byte vector, which is bound. The result is the
value the column receives. -/
def bind_col_in_db {T : Type} (c : BufferCodec T) (val : T) : Option blob :=
  let blobValue : blob := []
  some (encode_blob c val blobValue)

/-- The row `SQLiteUsers::store_user` writes: the values bound with `<<`, in the order of
the source, to the 26 columns the `REPLACE INTO users (...)` statement names (the fields
of `UsersRow`, in order). Value 22, for `assumed_role_arn`, is `nullptr`. -/
def SQLiteUsers.store_user_row {τ : RGWTypes} (cdc : UserCodecs τ) (user : DBOPUserInfo τ) :
    UsersRow :=
  ⟨user.uinfo.user_id.id, some user.uinfo.user_id.tenant,
   some user.uinfo.user_id.ns, some user.uinfo.display_name,
   some user.uinfo.user_email, bind_col_in_db cdc.access_key_map user.uinfo.access_keys,
   bind_col_in_db cdc.access_key_map user.uinfo.swift_keys,
   bind_col_in_db cdc.sub_user_map user.uinfo.subusers, some user.uinfo.suspended,
   some user.uinfo.max_buckets,
   some user.uinfo.op_mask, bind_col_in_db cdc.user_caps user.uinfo.caps,
   some user.uinfo.admin,
   some user.uinfo.system, some user.uinfo.default_placement.name,
   some user.uinfo.default_placement.storage_class,
   bind_col_in_db cdc.string_list user.uinfo.placement_tags,
   bind_col_in_db cdc.quota_info user.uinfo.quota.bucket_quota,
   bind_col_in_db cdc.int_string_map user.uinfo.temp_url_keys,
   bind_col_in_db cdc.quota_info user.uinfo.quota.user_quota, some user.uinfo.type,
   bind_col_in_db cdc.string_set user.uinfo.mfa_ids,
   none, bind_col_in_db cdc.attrs user.user_attrs, some user.user_version.ver,
   some user.user_version.tag⟩

/-- A value as SQLite stores it: NULL, an integer, a text or a blob. -/
inductive SqlValue where
  | null
  | integer (i : Int)
  | text (s : std_string)
  | blob_value (b : blob)
deriving DecidableEq, Repr

/-- The stored value of a text column. -/
def SqlValue.ofText (v : Option std_string) : SqlValue :=
  match v with
  | none => SqlValue.null
  | some s => SqlValue.text s

/-- The stored value of an integer column. -/
def SqlValue.ofInteger (v : Option Int) : SqlValue :=
  match v with
  | none => SqlValue.null
  | some i => SqlValue.integer i

/-- The stored value of a blob column. -/
def SqlValue.ofBlob (v : Option blob) : SqlValue :=
  match v with
  | none => SqlValue.null
  | some b => SqlValue.blob_value b

/-- The values of a stored row by position, in column order (position 0 is `user_id`,
position 22 `assumed_role_arn`). -/
def UsersRow.columns (row : UsersRow) : List SqlValue :=
  [SqlValue.ofText (some row.user_id), SqlValue.ofText row.tenant, SqlValue.ofText row.ns,
   SqlValue.ofText row.display_name, SqlValue.ofText row.user_email,
   SqlValue.ofBlob row.access_keys, SqlValue.ofBlob row.swift_keys,
   SqlValue.ofBlob row.sub_users, SqlValue.ofInteger row.suspended,
   SqlValue.ofInteger row.max_buckets, SqlValue.ofInteger row.op_mask,
   SqlValue.ofBlob row.user_caps, SqlValue.ofInteger row.admin,
   SqlValue.ofInteger row.system, SqlValue.ofText row.placement_name,
   SqlValue.ofText row.placement_storage_class, SqlValue.ofBlob row.placement_tags,
   SqlValue.ofBlob row.bucket_quota, SqlValue.ofBlob row.temp_url_keys,
   SqlValue.ofBlob row.user_quota, SqlValue.ofInteger row.type,
   SqlValue.ofBlob row.mfa_ids, SqlValue.ofText row.assumed_role_arn,
   SqlValue.ofBlob row.user_attrs, SqlValue.ofInteger row.user_version,
   SqlValue.ofText row.user_version_tag]

/-- Reading a row of `SELECT * FROM users` into the tuple `DBUserQueryResult`: element i
is read from column i with the reader of its type; the optional blob elements go through
`get_col_from_db` of `bindings/blob.h`, text columns are handed on as they are stored,
integer columns are read into `unsigned char` (suspended) or `int`. -/
def read_users_row {τ : RGWTypes} (cdc : UserCodecs τ) (binding : ColumnBinding τ)
    (row : UsersRow) : Outcome (DBUserQueryResult τ) := do
  let access_keys ←
    get_col_from_db_optional (get_col_from_db cdc.access_key_map []) row.access_keys 5
  let swift_keys ←
    get_col_from_db_optional (get_col_from_db cdc.access_key_map []) row.swift_keys 6
  let sub_users ←
    get_col_from_db_optional (get_col_from_db cdc.sub_user_map []) row.sub_users 7
  let user_caps ←
    get_col_from_db_optional (get_col_from_db cdc.user_caps binding.user_caps) row.user_caps 11
  let placement_tags ←
    get_col_from_db_optional (get_col_from_db cdc.string_list []) row.placement_tags 16
  let bucket_quota ←
    get_col_from_db_optional (get_col_from_db cdc.quota_info binding.quota_info)
      row.bucket_quota 17
  let temp_url_keys ←
    get_col_from_db_optional (get_col_from_db cdc.int_string_map []) row.temp_url_keys 18
  let user_quota ←
    get_col_from_db_optional (get_col_from_db cdc.quota_info binding.quota_info)
      row.user_quota 19
  let mfa_ids ←
    get_col_from_db_optional (get_col_from_db cdc.string_set []) row.mfa_ids 21
  let user_attrs ←
    get_col_from_db_optional (get_col_from_db cdc.attrs []) row.user_attrs 23
  pure
    ⟨row.user_id, row.tenant, row.ns, row.display_name, row.user_email, access_keys,
     swift_keys, sub_users, row.suspended.map binding.as_unsigned_char,
     row.max_buckets.map binding.as_int, row.op_mask.map binding.as_int, user_caps,
     row.admin.map binding.as_int, row.system.map binding.as_int, row.placement_name,
     row.placement_storage_class, placement_tags, bucket_quota, temp_url_keys, user_quota,
     row.type.map binding.as_int, mfa_ids, row.assumed_role_arn, user_attrs,
     row.user_version.map binding.as_int, row.user_version_tag⟩

/-- Building `DBOPUserInfo(row)` from a row of the users table: read the row into the
tuple, then run the row constructor. -/
def DBOPUserInfo.ofRow {τ : RGWTypes} (cdc : UserCodecs τ) (binding : ColumnBinding τ)
    (dflt : DBOPUserInfo τ) (row : UsersRow) : Outcome (DBOPUserInfo τ) :=
  (read_users_row cdc binding row).bind
    (fun values => Outcome.ok (DBOPUserInfo.ofQueryResult dflt values))

/-- The method `SQLiteUsers::get_user(userid)`:
`GetSQLiteSingleObject<DBOPUserInfo>(conn, "users", "user_id", userid)`. -/
def SQLiteUsers.get_user {τ : RGWTypes} (cdc : UserCodecs τ) (binding : ColumnBinding τ)
    (dflt : DBOPUserInfo τ) (db : Database) (userid : std_string) :
    Outcome (Option (DBOPUserInfo τ)) :=
  GetSQLiteSingleObject db.users (fun row => some row.user_id)
    (DBOPUserInfo.ofRow cdc binding dflt) (some userid)

/-- The method `SQLiteUsers::get_user_by_email(email)`:
`GetSQLiteSingleObject<DBOPUserInfo>(conn, "users", "user_email", email)`. -/
def SQLiteUsers.get_user_by_email {τ : RGWTypes} (cdc : UserCodecs τ)
    (binding : ColumnBinding τ) (dflt : DBOPUserInfo τ) (db : Database) (email : std_string) :
    Outcome (Option (DBOPUserInfo τ)) :=
  GetSQLiteSingleObject db.users (fun row => row.user_email)
    (DBOPUserInfo.ofRow cdc binding dflt) (some email)

/-- The method `SQLiteUsers::_remove_access_keys(userid)`:
`DELETE FROM access_keys WHERE user_id = ?`. -/
def SQLiteUsers._remove_access_keys (db : Database) (userid : std_string) : Database :=
  { db with access_keys := db.access_keys.filter (fun row => decide (row.user_id ≠ userid)) }

/-- The statement `INSERT INTO access_keys (access_key, user_id) VALUES (?,?)`. -/
def insert_access_key (db : Database) (access_key user_id : std_string) : Database :=
  { db with access_keys := db.access_keys ++ [{ access_key := access_key, user_id := user_id }] }

/-- The method `SQLiteUsers::_store_access_keys(user)`: remove the existing keys of the
user, then insert one row per entry of `user.uinfo.access_keys`, in map order. -/
def SQLiteUsers._store_access_keys {τ : RGWTypes} (db : Database) (user : DBOPUserInfo τ) :
    Database :=
  let db := SQLiteUsers._remove_access_keys db user.uinfo.user_id.id
  user.uinfo.access_keys.foldl
    (fun db key => insert_access_key db key.1 user.uinfo.user_id.id) db

/-- The statement `REPLACE INTO users (...) VALUES (...)`: a row with the same primary
key `user_id` is deleted, then the new row is inserted. -/
def replace_into_users (db : Database) (row : UsersRow) : Database :=
  { db with users := db.users.filter (fun r => decide (r.user_id ≠ row.user_id)) ++ [row] }

/-- The method `SQLiteUsers::store_user(user)` when every statement succeeds: replace
the user row, then `_store_access_keys(user)`. -/
def SQLiteUsers.store_user {τ : RGWTypes} (cdc : UserCodecs τ) (db : Database)
    (user : DBOPUserInfo τ) : Database :=
  let db := replace_into_users db (SQLiteUsers.store_user_row cdc user)
  SQLiteUsers._store_access_keys db user

/-- The statement `DELETE FROM users WHERE user_id = ?`. -/
def delete_from_users (db : Database) (userid : std_string) : Database :=
  { db with users := db.users.filter (fun r => decide (r.user_id ≠ userid)) }

/-- The method `SQLiteUsers::remove_user(userid)` when every statement succeeds:
`_remove_access_keys(userid)`, then delete the user row. -/
def SQLiteUsers.remove_user (db : Database) (userid : std_string) : Database :=
  let db := SQLiteUsers._remove_access_keys db userid
  delete_from_users db userid

/-! ### Statement by statement, with failures -/

/-- The statements the users store executes. -/
inductive Statement where
  | REPLACE_INTO_users (row : UsersRow)
  | DELETE_FROM_users (userid : std_string)
  | DELETE_FROM_access_keys (userid : std_string)
  | INSERT_INTO_access_keys (access_key user_id : std_string)
deriving DecidableEq, Repr

/-- The effect of one statement that succeeds. -/
def Statement.exec (stmt : Statement) (db : Database) : Database :=
  match stmt with
  | Statement.REPLACE_INTO_users row => replace_into_users db row
  | Statement.DELETE_FROM_users userid => delete_from_users db userid
  | Statement.DELETE_FROM_access_keys userid => SQLiteUsers._remove_access_keys db userid
  | Statement.INSERT_INTO_access_keys access_key user_id =>
    insert_access_key db access_key user_id

/-- The statements `SQLiteUsers::store_user(user)` executes, in order: the replace of the
user row, the delete of `_remove_access_keys`, one insert per access key. -/
def SQLiteUsers.store_user_statements {τ : RGWTypes} (cdc : UserCodecs τ)
    (user : DBOPUserInfo τ) : List Statement :=
  Statement.REPLACE_INTO_users (SQLiteUsers.store_user_row cdc user) ::
    Statement.DELETE_FROM_access_keys user.uinfo.user_id.id ::
    user.uinfo.access_keys.map
      (fun key => Statement.INSERT_INTO_access_keys key.1 user.uinfo.user_id.id)

/-- The statements `SQLiteUsers::remove_user(userid)` executes, in order. -/
def SQLiteUsers.remove_user_statements (userid : std_string) : List Statement :=
  [Statement.DELETE_FROM_access_keys userid, Statement.DELETE_FROM_users userid]

/-- Executing statements one after the other, each committed on its own (no statement of
`sqlite_users.cc` opens a transaction). When `failing` is `some n`, statement number `n`
(from 0) throws: the statements before it have taken effect, it and the ones after it
have none, and the exception leaves the method. -/
def run_statements (stmts : List Statement) (failing : Option Nat) (db : Database) :
    Outcome Unit × Database :=
  match stmts, failing with
  | [], _ => (Outcome.ok (), db)
  | _ :: _, some 0 => (Outcome.throws Exception.sqlite_exception, db)
  | stmt :: rest, some (n + 1) => run_statements rest (some n) (stmt.exec db)
  | stmt :: rest, none => run_statements rest none (stmt.exec db)

/-! ## Values handed to the database (`conversion_utils.h`) -/

/-- Function template `assign_db_value(source, dest)`, the generic overload:
`dest = source`. The conversion the assignment performs from `SOURCE` to `DEST` (the
identity when the types agree, the wrapping when `DEST` is `std::optional<SOURCE>`) is
`convert`. The result is the new value of `dest`. -/
def assign_db_value {SOURCE DEST : Type} (convert : SOURCE → DEST) (source : SOURCE)
    (_dest : DEST) : DEST :=
  convert source

/-- Function template `assign_db_value(source, dest)`, the overload for a source of type
`std::string`: `if (source.empty()) return; dest = source;`. -/
def assign_db_value_string {DEST : Type} (convert : std_string → DEST) (source : std_string)
    (dest : DEST) : DEST :=
  if source.isEmpty then dest else convert source

/-- Function template `assign_db_value(source, dest)`, the overload for a destination of
type `std::optional<std::vector<char>>`: `encode_blob(source, blob_vector)` into a fresh
byte vector, then `dest = blob_vector`. -/
def assign_db_value_optional_blob {SOURCE : Type} (c : BufferCodec SOURCE) (source : SOURCE)
    (_dest : Option blob) : Option blob :=
  let blob_vector : blob := []
  let blob_vector := encode_blob c source blob_vector
  some blob_vector

/-- Function template `assign_db_value(source, dest)`, the overload for a destination of
type `std::vector<char>`: `encode_blob(source, blob_vector)` into a fresh byte vector,
then `dest = blob_vector`. -/
def assign_db_value_blob {SOURCE : Type} (c : BufferCodec SOURCE) (source : SOURCE)
    (_dest : blob) : blob :=
  let blob_vector : blob := []
  let blob_vector := encode_blob c source blob_vector
  blob_vector

/-! ## Storing an object (`sqlite_objects.cc`) -/

/-- The statement `REPLACE INTO objects (uuid, bucket_id, name) VALUES (?, ?, ?)`: the
rows that would violate a uniqueness constraint together with the new row are deleted,
then the new row is inserted. The primary key of the table is `uuid`. The declaration of
the table is not among the sources; whether it also declares the pair (bucket_id, name)
unique, as the schema of the specification does, is the parameter `unique_name`. -/
def replace_into_objects (unique_name : Bool) (db : Database) (row : DBObjectQueryResult) :
    Database :=
  { db with objects := db.objects.filter (fun r =>
      !(decide (r.1 = row.1) ||
        (unique_name && (decide (r.2.1 = row.2.1) && decide (r.2.2 = row.2.2))))) ++ [row] }

/-- The method `SQLiteObjects::store_object(object)` when the statement succeeds:
`REPLACE INTO objects` with `object.uuid`, `object.bucket_id` and `object.name` bound, in
this order. Only the objects table is followed. -/
def SQLiteObjects.store_object (unique_name : Bool) (db : Database) (object : DBObject) :
    Database :=
  replace_into_objects unique_name db (object.uuid, object.bucket_id, object.name)

/-! ## Lookup of a user by access key (`sqlite_users.cc`) -/

/-- The method `SQLiteUsers::_get_user_id_by_access_key(key)`: run
`SELECT user_id FROM access_keys WHERE access_key = ?`; the loop takes the `user_id` of
the first row and breaks ("in case we have 2 keys that are equal in different users we
return the first one"); without a row the optional stays empty. -/
def SQLiteUsers._get_user_id_by_access_key (db : Database) (key : std_string) :
    Option std_string :=
  let rows := db.access_keys.filter (fun row => sql_eq (some row.access_key) (some key))
  match rows with
  | [] => none
  | row :: _ => some row.user_id

/-- The method `SQLiteUsers::get_user_by_access_key(key)`:
`user_id = _get_user_id_by_access_key(key)`, then
`GetSQLiteSingleObject<DBOPUserInfo>(conn, "users", "user_id", user_id)` with the
optional bound as it is: an empty optional is bound as NULL. -/
def SQLiteUsers.get_user_by_access_key {τ : RGWTypes} (cdc : UserCodecs τ)
    (binding : ColumnBinding τ) (dflt : DBOPUserInfo τ) (db : Database) (key : std_string) :
    Outcome (Option (DBOPUserInfo τ)) :=
  let user_id := SQLiteUsers._get_user_id_by_access_key db key
  GetSQLiteSingleObject db.users (fun row => some row.user_id)
    (DBOPUserInfo.ofRow cdc binding dflt) user_id

/-! ## Byte ranges (`rgw_sal.cc`) -/

/-- Conversion of an integer value to `uint64_t`: the value modulo 2^64. -/
def as_uint64 (x : Int) : Int :=
  x % 18446744073709551616

/-- Conversion of an integer value to `int64_t` (and to `off_t`, 64 bits wide): the
two's complement value modulo 2^64, in the range from -2^63 to 2^63 - 1. -/
def as_int64 (x : Int) : Int :=
  (x + 9223372036854775808) % 18446744073709551616 - 9223372036854775808

/-- What a call of `range_to_ofs` leaves behind: the returned `int` and the values of the
two reference arguments `ofs` and `end` on return. -/
structure RangeToOfs where
  ret : Int
  ofs : Int
  end_ : Int
deriving DecidableEq, Repr

/-- The function `rgw::sal::Object::range_to_ofs(obj_size, ofs, end)`. `obj_size` is a
`uint64_t`, `ofs` and `end` are `int64_t`: in `ofs += obj_size` and `obj_size - 1` the
arithmetic is done in `uint64_t` and the result converted to `int64_t` by the
assignment; the comparisons are signed, against `(off_t)obj_size`. -/
def Object.range_to_ofs (obj_size : Nat) (ofs end_ : Int) : RangeToOfs :=
  let r : Int × Int :=
    if ofs < 0 then
      let ofs := as_int64 (as_uint64 (as_uint64 ofs + obj_size))
      let ofs := if ofs < 0 then 0 else ofs
      let end_ := as_int64 (as_uint64 ((obj_size : Int) - 1))
      (ofs, end_)
    else if end_ < 0 then
      (ofs, as_int64 (as_uint64 ((obj_size : Int) - 1)))
    else
      (ofs, end_)
  if obj_size > 0 then
    if r.1 ≥ as_int64 obj_size then
      { ret := -(ERANGE : Int), ofs := r.1, end_ := r.2 }
    else if r.2 ≥ as_int64 obj_size then
      { ret := 0, ofs := r.1, end_ := as_int64 (as_uint64 ((obj_size : Int) - 1)) }
    else
      { ret := 0, ofs := r.1, end_ := r.2 }
  else
    { ret := 0, ofs := r.1, end_ := r.2 }

/-! ## Specification-side notions used to state the listing contract -/

/-- An object has at least one version in a visible state. -/
def has_visible_version (db : Database) (o : DBObject) : Bool :=
  db.versioned_objects.any (fun v => decide (v.object_id = o.uuid) && visible v)

/-- A name lies strictly after the marker; the empty marker is "no marker". -/
def after_marker (start_after name : std_string) : Bool :=
  start_after.isEmpty || string_lt start_after name

/-- The objects of the bucket that are visible, match the prefix and lie strictly after
the marker, as rows of the objects table. -/
def eligible_objects (db : Database) (bucket_id pfx start_after : std_string) : List DBObject :=
  (SQLiteObjects.get_objects db bucket_id).filter
    (fun o => has_visible_version db o && starts_with o.name pfx && after_marker start_after o.name)

/-- Schema constraint of the objects table: names are unique within a bucket. -/
def names_unique (db : Database) (bucket_id : std_string) : Prop :=
  ((SQLiteObjects.get_objects db bucket_id).map (fun o => o.name)).Nodup

/-- Version `v` is the most recently written visible version of `o`: it is a visible
version of `o` and no row written after it is a visible version of `o`. -/
def is_authoritative (db : Database) (o : DBObject) (v : DBVersionedObject) : Prop :=
  ∃ earlier later, db.versioned_objects = earlier ++ v :: later ∧
    v.object_id = o.uuid ∧ visible v = true ∧
    ∀ w ∈ later, ¬ (w.object_id = o.uuid ∧ visible w = true)

/-- Every row of the access-key index references a stored user (the index is derived
from the users). -/
def index_references_users (db : Database) : Prop :=
  ∀ r ∈ db.access_keys, ∃ row ∈ db.users, row.user_id = r.user_id

/-! ## Specification-side notions used to state the codec contract -/

/-- Five committed objects "aaa" .. "eee" in "testbucket", stored out of order, and one
object of another bucket. -/
def db_five : Database :=
  { objects := [(⟨3⟩, bytes "testbucket", bytes "ccc"), (⟨1⟩, bytes "testbucket", bytes "aaa"),
                (⟨5⟩, bytes "testbucket", bytes "eee"), (⟨9⟩, bytes "other", bytes "zzz"),
                (⟨4⟩, bytes "testbucket", bytes "ddd"), (⟨2⟩, bytes "testbucket", bytes "bbb")],
    versioned_objects :=
      [⟨1, ⟨1⟩, 10, bytes "e1", 100, ObjectState.COMMITTED⟩,
       ⟨2, ⟨2⟩, 20, bytes "e2", 200, ObjectState.COMMITTED⟩,
       ⟨3, ⟨3⟩, 30, bytes "e3", 300, ObjectState.COMMITTED⟩,
       ⟨4, ⟨4⟩, 40, bytes "e4", 400, ObjectState.COMMITTED⟩,
       ⟨5, ⟨5⟩, 50, bytes "e5", 500, ObjectState.COMMITTED⟩,
       ⟨6, ⟨9⟩, 60, bytes "e6", 600, ObjectState.COMMITTED⟩] }

/-- Objects with several versions: "file1" has two committed versions and a pending one,
"hidden" only a pending and a deleted one, "bare" has no version at all. -/
def db_versions : Database :=
  { objects := [(⟨1⟩, bytes "testbucket", bytes "file1"), (⟨2⟩, bytes "testbucket", bytes "hidden"),
                (⟨3⟩, bytes "testbucket", bytes "bare")],
    versioned_objects :=
      [⟨1, ⟨1⟩, 10, bytes "old", 100, ObjectState.COMMITTED⟩,
       ⟨2, ⟨2⟩, 20, bytes "h1", 200, ObjectState.PENDING⟩,
       ⟨3, ⟨1⟩, 30, bytes "new", 300, ObjectState.COMMITTED⟩,
       ⟨4, ⟨2⟩, 40, bytes "h2", 400, ObjectState.DELETED_MARKER⟩,
       ⟨5, ⟨1⟩, 50, bytes "open", 500, ObjectState.PENDING⟩] }

/-- Objects under two prefixes (scenario 4 of the spec). -/
def db_prefixed : Database :=
  { objects := [(⟨1⟩, bytes "testbucket", bytes "aaa/1"), (⟨2⟩, bytes "testbucket", bytes "XXX/1"),
                (⟨3⟩, bytes "testbucket", bytes "aaa/3"), (⟨4⟩, bytes "testbucket", bytes "XXX/2"),
                (⟨5⟩, bytes "testbucket", bytes "aaa/2")],
    versioned_objects :=
      [⟨1, ⟨1⟩, 10, bytes "e1", 1, ObjectState.COMMITTED⟩,
       ⟨2, ⟨2⟩, 20, bytes "e2", 2, ObjectState.COMMITTED⟩,
       ⟨3, ⟨3⟩, 30, bytes "e3", 3, ObjectState.COMMITTED⟩,
       ⟨4, ⟨4⟩, 40, bytes "e4", 4, ObjectState.COMMITTED⟩,
       ⟨5, ⟨5⟩, 50, bytes "e5", 5, ObjectState.COMMITTED⟩] }

/-- Sample value types: each opaque RGW type is a number. -/
@[reducible] def sample_types : RGWTypes :=
  { AccessKey := Nat, SubUser := Nat, UserCaps := Nat, QuotaInfo := Nat }

/-- Sample encoding of a list of byte strings: each string as its length (one byte) and
its bytes. -/
def encode_strings : List std_string → List UInt8
  | [] => []
  | str :: rest => UInt8.ofNat str.length :: (str ++ encode_strings rest)

/-- Sample decoding of a list of byte strings; `fuel` bounds the number of strings. -/
def decode_strings : Nat → List UInt8 → Option (List std_string)
  | _, [] => some []
  | 0, _ :: _ => none
  | fuel + 1, n :: tl =>
    if tl.length < n.toNat then none
    else (decode_strings fuel (tl.drop n.toNat)).map (fun rest => tl.take n.toNat :: rest)

/-- Sample codec of a type with a translation to and from lists of byte strings: a
header byte, then the strings. -/
def sample_codec {T : Type} (to_strings : T → List std_string)
    (of_strings : List std_string → Option T) : BufferCodec T :=
  { encode := fun v bl => bl ++ 1 :: encode_strings (to_strings v),
    decode := fun _ bl =>
      match bl with
      | 1 :: body =>
        match (decode_strings body.length body).bind of_strings with
        | some v => Except.ok v
        | none => Except.error "buffer::malformed_input"
      | _ => Except.error "buffer::end_of_buffer" }

/-- Sample translation of a map with string keys and small numbers as values. -/
def pairs_to_strings : List (std_string × Nat) → List std_string
  | [] => []
  | (k, v) :: rest => k :: [UInt8.ofNat v] :: pairs_to_strings rest

/-- Inverse of `pairs_to_strings`. -/
def pairs_of_strings : List std_string → Option (List (std_string × Nat))
  | [] => some []
  | k :: [v] :: rest => (pairs_of_strings rest).map (fun tl => (k, v.toNat) :: tl)
  | _ => none

/-- Sample translation of an attribute map. -/
def attrs_to_strings : Attrs → List std_string
  | [] => []
  | (k, v) :: rest => k :: v :: attrs_to_strings rest

/-- Inverse of `attrs_to_strings`. -/
def attrs_of_strings : List std_string → Option Attrs
  | [] => some []
  | k :: v :: rest => (attrs_of_strings rest).map (fun tl => (k, v) :: tl)
  | _ => none

/-- Sample codec of a small number: one byte. -/
def sample_number_codec : BufferCodec Nat :=
  sample_codec (fun n => [[UInt8.ofNat n]])
    (fun l => match l with
      | [[b]] => some b.toNat
      | _ => none)

/-- Sample codecs of the blob types of the users table. -/
def sample_codecs : UserCodecs sample_types :=
  { access_key_map := sample_codec pairs_to_strings pairs_of_strings,
    sub_user_map := sample_codec pairs_to_strings pairs_of_strings,
    user_caps := sample_number_codec,
    string_list := sample_codec id some,
    quota_info := sample_number_codec,
    int_string_map :=
      sample_codec (fun m => pairs_to_strings (m.map (fun e => (e.2, e.1.toNat))))
        (fun l => (pairs_of_strings l).map (fun m => m.map (fun e => (Int.ofNat e.2, e.1)))),
    string_set := sample_codec id some,
    attrs := sample_codec attrs_to_strings attrs_of_strings }

/-- Sample binding: zero as default of the opaque types; a stored integer is read into an
`int` as `sqlite3_column_int` returns it, the low 32 bits in two's complement, and into
an `unsigned char` by keeping its low 8 bits. -/
def sample_binding : ColumnBinding sample_types :=
  { user_caps := 0, quota_info := 0,
    as_int := fun i => (i + 2147483648) % 4294967296 - 2147483648,
    as_unsigned_char := fun i => i % 256 }

/-- A sample default-constructed user record. -/
def sample_default_user : DBOPUserInfo sample_types :=
  { uinfo :=
      { user_id := { id := [], tenant := [], ns := [] }, display_name := [], user_email := [],
        access_keys := [], swift_keys := [], subusers := [], suspended := 0,
        max_buckets := 1000, op_mask := 7, caps := 0, admin := 0, system := 0,
        default_placement := { name := [], storage_class := [] }, placement_tags := [],
        temp_url_keys := [], quota := { user_quota := 0, bucket_quota := 0 }, type := 0,
        mfa_ids := [] },
    user_version := { ver := 0, tag := [] },
    user_attrs := [] }

/-- The user "alice" with two access keys. -/
def sample_alice : DBOPUserInfo sample_types :=
  { uinfo :=
      { user_id := { id := bytes "alice", tenant := bytes "t1", ns := [] },
        display_name := bytes "Alice", user_email := bytes "alice@example.com",
        access_keys := [(bytes "AKIA1", 11), (bytes "AKIA2", 12)],
        swift_keys := [(bytes "swift", 5)], subusers := [],
        suspended := 0, max_buckets := 10, op_mask := 7, caps := 3, admin := 1, system := 0,
        default_placement := { name := bytes "default", storage_class := bytes "STANDARD" },
        placement_tags := [bytes "ssd"], temp_url_keys := [(0, bytes "tmpkey")],
        quota := { user_quota := 100, bucket_quota := 200 }, type := 1,
        mfa_ids := [bytes "mfa1"] },
    user_version := { ver := 4, tag := bytes "v4" },
    user_attrs := [(bytes "user.rgw.attr", [1, 2, 3])] }

/-- The user "alice" stored earlier, with the single access key "OLDKEY". -/
def sample_alice_before : DBOPUserInfo sample_types :=
  { sample_alice with
    uinfo := { sample_alice.uinfo with access_keys := [(bytes "OLDKEY", 9)] } }

/-- A store that holds "alice" with her old key and "bob" with one key. -/
def db_users : Database :=
  { users :=
      [SQLiteUsers.store_user_row sample_codecs sample_alice_before,
       SQLiteUsers.store_user_row sample_codecs
         { sample_default_user with
           uinfo := { sample_default_user.uinfo with
             user_id := { id := bytes "bob", tenant := [], ns := [] } } }],
    access_keys :=
      [{ access_key := bytes "OLDKEY", user_id := bytes "alice" },
       { access_key := bytes "BOBKEY", user_id := bytes "bob" }] }

/-- The store `db_users` with one more user, whose `user_id` is the empty string. -/
def db_users_with_unnamed : Database :=
  { db_users with
    users := SQLiteUsers.store_user_row sample_codecs sample_default_user :: db_users.users }

/-- A sample text form of an identifier: as many bytes as the number. -/
def sample_uuid_to_string (uuid : uuid_d) : std_string :=
  List.replicate uuid.uuid 48

/-- The user "bob" with the access key "BOBKEY". -/
def sample_bob : DBOPUserInfo sample_types :=
  { sample_default_user with
    uinfo := { sample_default_user.uinfo with
      user_id := { id := bytes "bob", tenant := [], ns := [] },
      access_keys := [(bytes "BOBKEY", 21)] } }

/-- The user "bob" after he gave up his access key. -/
def sample_bob_without_key : DBOPUserInfo sample_types :=
  { sample_bob with uinfo := { sample_bob.uinfo with access_keys := [] } }

/-- The user "carol", who has the access key "BOBKEY". -/
def sample_carol : DBOPUserInfo sample_types :=
  { sample_default_user with
    uinfo := { sample_default_user.uinfo with
      user_id := { id := bytes "carol", tenant := [], ns := [] },
      access_keys := [(bytes "BOBKEY", 31)] } }

/-- An empty store in which "bob" is stored with his key. -/
def db_bob : Database :=
  SQLiteUsers.store_user sample_codecs {} sample_bob

/-- The store after "bob" was stored again without the key and the second statement of
that `store_user`, the delete of his index rows, failed: his user row is the new one, the
index still holds his old key. -/
def db_bob_stale : Database :=
  (run_statements (SQLiteUsers.store_user_statements sample_codecs sample_bob_without_key)
    (some 1) db_bob).2

/-- The store after "carol" was then stored, every statement succeeding. -/
def db_carol : Database :=
  SQLiteUsers.store_user sample_codecs db_bob_stale sample_carol

/-- Test `empty__lists_nothing`: an empty bucket lists nothing. -/
theorem scenario_empty_bucket :
    SQLiteList.objects {} (bytes "testbucket") [] [] 10 = ⟨true, [], false⟩ := by
  decide

/-- Test `single_object__plain_list_returns_it`, with several versions: the entry carries
the fields of the last committed version. -/
theorem scenario_single_object :
    (SQLiteList.objects db_versions (bytes "testbucket") [] [] 100).results =
      [⟨⟨bytes "file1"⟩, ⟨30, bytes "new", 300, 300⟩⟩] := by
  decide

/-- Tests `never_returns_more_than_max` and `more_avail__true_if_more`: five objects,
`max = 2`. -/
theorem scenario_two_of_five :
    (SQLiteList.objects db_five (bytes "testbucket") [] [] 2).results.map
        (fun e => e.key.name) = [bytes "aaa", bytes "bbb"] ∧
    (SQLiteList.objects db_five (bytes "testbucket") [] [] 2).truncated = true := by
  decide

/-- Test `more_avail__false_if_all`: exactly `max` objects. -/
theorem scenario_all_of_five :
    (SQLiteList.objects db_five (bytes "testbucket") [] [] 5).results.length = 5 ∧
    (SQLiteList.objects db_five (bytes "testbucket") [] [] 5).truncated = false := by
  decide

/-- Test `more_avail__max_zero_bucket_not_empty`. -/
theorem scenario_max_zero :
    SQLiteList.objects db_five (bytes "testbucket") [] [] 0 = ⟨true, [], true⟩ := by
  decide

/-- Test `prefix_search_returns_only_prefixed` (scenario 4 of the spec). -/
theorem scenario_prefixed :
    (SQLiteList.objects db_prefixed (bytes "testbucket") (bytes "aaa/") [] 1000).results.map
        (fun e => e.key.name) = [bytes "aaa/1", bytes "aaa/2", bytes "aaa/3"] := by
  decide

/-- Test `start_after_object_name` (scenario 5 of the spec). -/
theorem scenario_start_after :
    (SQLiteList.objects db_five (bytes "testbucket") [] (bytes "ddd") 1000).results.map
        (fun e => e.key.name) = [bytes "eee"] := by
  decide

/-! ## The bytewise order is a strict total order -/

theorem string_lt_nil_right (a : std_string) : string_lt a [] = false := by
  cases a <;> rfl

theorem string_lt_cons (a b : UInt8) (as bs : std_string) :
    string_lt (a :: as) (b :: bs) = true ↔ a < b ∨ (a = b ∧ string_lt as bs = true) := by
  simp [string_lt]

theorem string_lt_irrefl (a : std_string) : string_lt a a = false := by
  induction a with
  | nil => rfl
  | cons x xs ih =>
    rw [Bool.eq_false_iff]
    intro h
    rcases (string_lt_cons x x xs xs).mp h with h | ⟨_, h⟩
    · exact UInt8.lt_irrefl x h
    · simp [ih] at h

theorem string_lt_trans {a b c : std_string} (hab : string_lt a b = true)
    (hbc : string_lt b c = true) : string_lt a c = true := by
  induction a generalizing b c with
  | nil =>
    cases c with
    | nil => simp [string_lt_nil_right] at hbc
    | cons z zs => rfl
  | cons x xs ih =>
    cases b with
    | nil => simp [string_lt_nil_right] at hab
    | cons y ys =>
      cases c with
      | nil => simp [string_lt_nil_right] at hbc
      | cons z zs =>
        rw [string_lt_cons] at hab hbc ⊢
        rcases hab with hxy | ⟨hxy, hab⟩
        · rcases hbc with hyz | ⟨hyz, _⟩
          · exact Or.inl (UInt8.lt_trans hxy hyz)
          · exact Or.inl (hyz ▸ hxy)
        · rcases hbc with hyz | ⟨hyz, hbc⟩
          · exact Or.inl (hxy ▸ hyz)
          · exact Or.inr ⟨hxy.trans hyz, ih hab hbc⟩

theorem string_lt_asymm {a b : std_string} (hab : string_lt a b = true) :
    string_lt b a = false := by
  rw [Bool.eq_false_iff]
  intro hba
  have h := string_lt_trans hab hba
  simp [string_lt_irrefl] at h

theorem string_lt_trichotomy {a b : std_string} (hab : string_lt a b = false)
    (hba : string_lt b a = false) : a = b := by
  induction a generalizing b with
  | nil =>
    cases b with
    | nil => rfl
    | cons y ys => simp [string_lt] at hab
  | cons x xs ih =>
    cases b with
    | nil => simp [string_lt] at hba
    | cons y ys =>
      rw [Bool.eq_false_iff, Ne, string_lt_cons] at hab hba
      push_neg at hab hba
      have hxy : x = y := UInt8.le_antisymm (UInt8.not_lt.mp hba.1) (UInt8.not_lt.mp hab.1)
      subst hxy
      have h1 : string_lt xs ys = false := by simpa using hab.2 rfl
      have h2 : string_lt ys xs = false := by simpa using hba.2 rfl
      rw [ih h1 h2]

theorem name_le_total (a b : DBObject × DBVersionedObject) : name_le a b ∨ name_le b a := by
  unfold name_le
  cases h : string_lt b.1.name a.1.name with
  | false => exact Or.inl rfl
  | true => exact Or.inr (string_lt_asymm h)

theorem name_le_trans {a b c : DBObject × DBVersionedObject} (hab : name_le a b)
    (hbc : name_le b c) : name_le a c := by
  unfold name_le at *
  rw [Bool.eq_false_iff]
  intro hca
  cases h : string_lt a.1.name b.1.name with
  | false =>
    have e := string_lt_trichotomy h hab
    rw [e, hbc] at hca
    exact Bool.false_ne_true hca
  | true =>
    have hcb := string_lt_trans hca h
    rw [hbc] at hcb
    exact Bool.false_ne_true hcb

/-- A list ordered by name whose names are pairwise distinct is strictly ascending. -/
theorem strict_of_sorted_of_nodup {l : List (DBObject × DBVersionedObject)}
    (hs : l.Pairwise name_le) (hn : (l.map (fun p => p.1.name)).Nodup) :
    l.Pairwise (fun a b => string_lt a.1.name b.1.name = true) := by
  have hne : l.Pairwise (fun a b => a.1.name ≠ b.1.name) := by
    simpa [List.Nodup, List.pairwise_map] using hn
  refine (hs.and hne).imp ?_
  intro a b h
  cases hab : string_lt a.1.name b.1.name with
  | true => rfl
  | false => exact absurd (string_lt_trichotomy hab h.1) h.2

/-! ## The row store -/

theorem foldl_emplace_back {Row Target : Type} (mk : Row → Target) (rows : List Row)
    (init : List Target) :
    rows.foldl (fun ret row => ret ++ [mk row]) init = init ++ rows.map mk := by
  induction rows generalizing init with
  | nil => simp
  | cons r rs ih => simp [ih]

theorem GetSQLiteObjectsWhere_eq {Row Target ColumWhereType : Type}
    [DecidableEq ColumWhereType] (table : List Row) (column : Row → ColumWhereType)
    (mk : Row → Target) (column_value : ColumWhereType) :
    GetSQLiteObjectsWhere table column mk column_value =
      (table.filter (fun row => decide (column row = column_value))).map mk := by
  simp [GetSQLiteObjectsWhere, foldl_emplace_back]

theorem get_objects_eq (db : Database) (bucket_id : std_string) :
    SQLiteObjects.get_objects db bucket_id =
      (db.objects.filter (fun row => decide (row.2.1 = bucket_id))).map DBObject.ofQueryResult := by
  simp [SQLiteObjects.get_objects, GetSQLiteObjectsWhere_eq]

theorem get_objects_bucket_id {db : Database} {bucket_id : std_string} {o : DBObject}
    (h : o ∈ SQLiteObjects.get_objects db bucket_id) : o.bucket_id = bucket_id := by
  rw [get_objects_eq] at h
  simp only [List.mem_map, List.mem_filter, decide_eq_true_eq] at h
  obtain ⟨row, ⟨_, hb⟩, rfl⟩ := h
  exact hb


/-! ## The stages of the listing -/

theorem order_by_name_perm (l : List (DBObject × DBVersionedObject)) :
    (order_by_name l).Perm l :=
  List.perm_insertionSort name_le l

theorem order_by_name_sorted (l : List (DBObject × DBVersionedObject)) :
    (order_by_name l).Pairwise name_le := by
  haveI : IsTotal (DBObject × DBVersionedObject) name_le := ⟨name_le_total⟩
  haveI : IsTrans (DBObject × DBVersionedObject) name_le := ⟨fun _ _ _ => name_le_trans⟩
  exact List.sorted_insertionSort name_le l

theorem discard_up_to_marker_eq (start_after : std_string)
    (l : List (DBObject × DBVersionedObject)) :
    discard_up_to_marker start_after l = l.filter (fun p => after_marker start_after p.1.name) := by
  unfold discard_up_to_marker after_marker
  cases h : start_after.isEmpty <;> simp

theorem authoritative_version_isSome (db : Database) (o : DBObject) :
    (authoritative_version db.versioned_objects o).isSome = has_visible_version db o := by
  unfold authoritative_version visible_versions has_visible_version
  rw [Bool.eq_iff_iff, List.getLast?_isSome, List.any_eq_true, Ne, List.filter_eq_nil_iff]
  push_neg
  rfl

theorem authoritative_version_sound {db : Database} {o : DBObject} {v : DBVersionedObject}
    (h : authoritative_version db.versioned_objects o = some v) : is_authoritative db o v := by
  unfold authoritative_version visible_versions at h
  obtain ⟨ys, hys⟩ := List.getLast?_eq_some_iff.mp h
  obtain ⟨l₁, l₂, hl, _, h2⟩ := List.filter_eq_append_iff.mp hys
  obtain ⟨m₁, m₂, hm, _, hv, hrest⟩ := List.filter_eq_cons_iff.mp h2
  refine ⟨l₁ ++ m₁, m₂, by rw [hl, hm, List.append_assoc], ?_, ?_, ?_⟩
  · simp only [Bool.and_eq_true, decide_eq_true_eq] at hv
    exact hv.1
  · simp only [Bool.and_eq_true, decide_eq_true_eq] at hv
    exact hv.2
  · intro w hw hc
    have hnil := List.filter_eq_nil_iff.mp hrest w hw
    apply hnil
    simp [hc.1, hc.2]

theorem mem_resolve_objects {db : Database} {bucket_id : std_string}
    {p : DBObject × DBVersionedObject} :
    p ∈ resolve_objects db bucket_id ↔
      p.1 ∈ SQLiteObjects.get_objects db bucket_id ∧
        authoritative_version db.versioned_objects p.1 = some p.2 := by
  unfold resolve_objects
  rw [List.mem_filterMap]
  constructor
  · rintro ⟨o, ho, hp⟩
    cases hv : authoritative_version db.versioned_objects o with
    | none => simp [hv] at hp
    | some v =>
      simp only [hv, Option.map_some', Option.some.injEq] at hp
      subst hp
      exact ⟨ho, hv⟩
  · rintro ⟨ho, hv⟩
    exact ⟨p.1, ho, by simp [hv]⟩

theorem resolve_objects_map_fst (db : Database) (bucket_id : std_string) :
    (resolve_objects db bucket_id).map Prod.fst =
      (SQLiteObjects.get_objects db bucket_id).filter (fun o => has_visible_version db o) := by
  unfold resolve_objects
  induction SQLiteObjects.get_objects db bucket_id with
  | nil => rfl
  | cons o os ih =>
    have hs := authoritative_version_isSome db o
    cases hv : authoritative_version db.versioned_objects o with
    | none =>
      rw [hv] at hs
      simp only [Option.isSome_none] at hs
      simp [List.filterMap_cons, hv, ← hs, ih]
    | some v =>
      rw [hv] at hs
      simp only [Option.isSome_some] at hs
      simp [List.filterMap_cons, hv, ← hs, ih]

theorem remaining_rows_perm (db : Database) (bucket_id pfx start_after : std_string) :
    (remaining_rows db bucket_id pfx start_after).Perm
      ((resolve_objects db bucket_id).filter
        (fun p => after_marker start_after p.1.name && starts_with p.1.name pfx)) := by
  unfold remaining_rows filter_by_pfx
  rw [discard_up_to_marker_eq, ← List.filter_filter]
  exact (order_by_name_perm _).filter _

theorem remaining_rows_fst_perm (db : Database) (bucket_id pfx start_after : std_string) :
    ((remaining_rows db bucket_id pfx start_after).map Prod.fst).Perm
      (eligible_objects db bucket_id pfx start_after) := by
  have h := (remaining_rows_perm db bucket_id pfx start_after).map Prod.fst
  have e : ((resolve_objects db bucket_id).filter
        (fun p => after_marker start_after p.1.name && starts_with p.1.name pfx)).map Prod.fst =
      eligible_objects db bucket_id pfx start_after := by
    have hc : (fun p : DBObject × DBVersionedObject =>
        after_marker start_after p.1.name && starts_with p.1.name pfx) =
        (fun o : DBObject => after_marker start_after o.name && starts_with o.name pfx) ∘ Prod.fst :=
      rfl
    rw [hc, ← List.filter_map, resolve_objects_map_fst, List.filter_filter]
    unfold eligible_objects
    congr 1
    funext o
    cases has_visible_version db o <;> cases starts_with o.name pfx <;>
      cases after_marker start_after o.name <;> rfl
  rw [e] at h
  exact h

theorem remaining_rows_length (db : Database) (bucket_id pfx start_after : std_string) :
    (remaining_rows db bucket_id pfx start_after).length =
      (eligible_objects db bucket_id pfx start_after).length := by
  have h := (remaining_rows_fst_perm db bucket_id pfx start_after).length_eq
  simpa using h

theorem mem_remaining_rows {db : Database} {bucket_id pfx start_after : std_string}
    {p : DBObject × DBVersionedObject} :
    p ∈ remaining_rows db bucket_id pfx start_after ↔
      (p.1 ∈ SQLiteObjects.get_objects db bucket_id ∧
        authoritative_version db.versioned_objects p.1 = some p.2) ∧
        after_marker start_after p.1.name = true ∧ starts_with p.1.name pfx = true := by
  rw [(remaining_rows_perm db bucket_id pfx start_after).mem_iff, List.mem_filter,
    mem_resolve_objects, Bool.and_eq_true]

theorem mem_eligible_objects {db : Database} {bucket_id pfx start_after : std_string}
    {o : DBObject} :
    o ∈ eligible_objects db bucket_id pfx start_after ↔
      o ∈ SQLiteObjects.get_objects db bucket_id ∧ has_visible_version db o = true ∧
        starts_with o.name pfx = true ∧ after_marker start_after o.name = true := by
  unfold eligible_objects
  rw [List.mem_filter, Bool.and_eq_true, Bool.and_eq_true, and_assoc]

theorem remaining_rows_sorted (db : Database) (bucket_id pfx start_after : std_string) :
    (remaining_rows db bucket_id pfx start_after).Pairwise name_le := by
  unfold remaining_rows
  rw [discard_up_to_marker_eq]
  exact (order_by_name_sorted _).sublist (List.filter_sublist _)

theorem eligible_objects_sublist (db : Database) (bucket_id pfx start_after : std_string) :
    (eligible_objects db bucket_id pfx start_after).Sublist
      (SQLiteObjects.get_objects db bucket_id) :=
  List.filter_sublist _

theorem remaining_rows_names_nodup {db : Database} {bucket_id : std_string}
    (hu : names_unique db bucket_id) (pfx start_after : std_string) :
    ((remaining_rows db bucket_id pfx start_after).map (fun p => p.1.name)).Nodup := by
  have hs : ((eligible_objects db bucket_id pfx start_after).map (fun o => o.name)).Nodup :=
    List.Nodup.sublist ((eligible_objects_sublist db bucket_id pfx start_after).map _) hu
  have hp := (remaining_rows_fst_perm db bucket_id pfx start_after).map (fun o => o.name)
  rw [List.map_map] at hp
  exact hp.symm.nodup hs

theorem remaining_rows_strict {db : Database} {bucket_id : std_string}
    (hu : names_unique db bucket_id) (pfx start_after : std_string) :
    (remaining_rows db bucket_id pfx start_after).Pairwise
      (fun a b => string_lt a.1.name b.1.name = true) :=
  strict_of_sorted_of_nodup (remaining_rows_sorted db bucket_id pfx start_after)
    (remaining_rows_names_nodup hu pfx start_after)


/-! ## The listing contract -/

theorem objects_results_eq (db : Database) (bucket_id pfx start_after : std_string) (max : Nat) :
    (SQLiteList.objects db bucket_id pfx start_after max).results =
      ((remaining_rows db bucket_id pfx start_after).take max).map
        (fun p => make_entry p.1 p.2) :=
  rfl

theorem objects_results_length (db : Database) (bucket_id pfx start_after : std_string)
    (max : Nat) :
    (SQLiteList.objects db bucket_id pfx start_after max).results.length =
      min max (eligible_objects db bucket_id pfx start_after).length := by
  rw [objects_results_eq, List.length_map, List.length_take, remaining_rows_length]

theorem objects_truncated_iff (db : Database) (bucket_id pfx start_after : std_string)
    (max : Nat) :
    (SQLiteList.objects db bucket_id pfx start_after max).truncated = true ↔
      max < (eligible_objects db bucket_id pfx start_after).length := by
  unfold SQLiteList.objects
  simp only [decide_eq_true_eq, List.length_take, remaining_rows_length]
  omega

/-- Every returned entry comes from a row of the remaining sequence. -/
theorem mem_objects_results {db : Database} {bucket_id pfx start_after : std_string}
    {max : Nat} {e : rgw_bucket_dir_entry}
    (he : e ∈ (SQLiteList.objects db bucket_id pfx start_after max).results) :
    ∃ p ∈ remaining_rows db bucket_id pfx start_after, e = make_entry p.1 p.2 := by
  rw [objects_results_eq, List.mem_map] at he
  obtain ⟨p, hp, rfl⟩ := he
  exact ⟨p, List.mem_of_mem_take hp, rfl⟩

/-- C1: the listing sets `truncated` exactly when the objects of the bucket that are
visible, match the prefix and lie strictly after the marker (the empty marker excludes
nothing) are strictly more than the entries returned. With `max = 0` nothing is returned
and `truncated` tells whether that set is non-empty; when the set has exactly `max`
members all of them are returned and `truncated` is false. -/
theorem objects_truncated_iff_more_exist (db : Database)
    (bucket_id pfx start_after : std_string) (max : Nat) :
    ((SQLiteList.objects db bucket_id pfx start_after max).truncated = true ↔
      (SQLiteList.objects db bucket_id pfx start_after max).results.length <
        (eligible_objects db bucket_id pfx start_after).length) ∧
    ((SQLiteList.objects db bucket_id pfx start_after 0).results = [] ∧
      ((SQLiteList.objects db bucket_id pfx start_after 0).truncated = true ↔
        eligible_objects db bucket_id pfx start_after ≠ [])) ∧
    ((eligible_objects db bucket_id pfx start_after).length = max →
      (SQLiteList.objects db bucket_id pfx start_after max).results.length = max ∧
      (SQLiteList.objects db bucket_id pfx start_after max).truncated = false) := by
  refine ⟨?_, ⟨?_, ?_⟩, ?_⟩
  · rw [objects_truncated_iff, objects_results_length]
    omega
  · simp [objects_results_eq]
  · rw [objects_truncated_iff, List.length_pos]
  · intro h
    refine ⟨by rw [objects_results_length]; omega, ?_⟩
    rw [Bool.eq_false_iff, Ne, objects_truncated_iff]
    omega

/-- The eligible object `o` with enough room in the page is returned with the fields of
its authoritative version. -/
theorem eligible_object_listed {db : Database} {bucket_id pfx start_after : std_string}
    {max : Nat} {o : DBObject} (ho : o ∈ eligible_objects db bucket_id pfx start_after)
    (hmax : (eligible_objects db bucket_id pfx start_after).length ≤ max) :
    ∃ v, is_authoritative db o v ∧
      make_entry o v ∈ (SQLiteList.objects db bucket_id pfx start_after max).results := by
  have hm := (remaining_rows_fst_perm db bucket_id pfx start_after).mem_iff.mpr ho
  obtain ⟨p, hp, rfl⟩ := List.mem_map.mp hm
  refine ⟨p.2, authoritative_version_sound (mem_remaining_rows.mp hp).1.2, ?_⟩
  rw [objects_results_eq, List.take_of_length_le (by rw [remaining_rows_length]; exact hmax)]
  exact List.mem_map.mpr ⟨p, hp, rfl⟩

/-- C3: with a non-empty marker `K`, every returned entry has a name strictly greater
than `K` in bytewise order, so `K` itself is never returned; and every visible object of
the bucket that matches the prefix and is greater than `K` is returned once `max` is at
least the number of such objects. -/
theorem objects_start_after_strict (db : Database) (bucket_id pfx K : std_string)
    (max : Nat) (hK : K ≠ []) :
    (∀ e ∈ (SQLiteList.objects db bucket_id pfx K max).results,
      string_lt K e.key.name = true ∧ e.key.name ≠ K) ∧
    (∀ o ∈ SQLiteObjects.get_objects db bucket_id,
      has_visible_version db o = true → starts_with o.name pfx = true →
      string_lt K o.name = true →
      (eligible_objects db bucket_id pfx K).length ≤ max →
      ∃ v, is_authoritative db o v ∧
        make_entry o v ∈ (SQLiteList.objects db bucket_id pfx K max).results) := by
  have hne : K.isEmpty = false := by
    cases K with
    | nil => exact absurd rfl hK
    | cons _ _ => rfl
  constructor
  · intro e he
    obtain ⟨p, hp, rfl⟩ := mem_objects_results he
    have h := (mem_remaining_rows.mp hp).2.1
    simp only [after_marker, hne, Bool.false_or] at h
    refine ⟨h, ?_⟩
    intro hEq
    have hk : string_lt K K = true := by
      have h2 := h
      simp only [make_entry] at hEq
      rw [hEq] at h2
      exact h2
    rw [string_lt_irrefl] at hk
    exact Bool.false_ne_true hk
  · intro o ho hv hp hk hmax
    refine eligible_object_listed (mem_eligible_objects.mpr ⟨ho, hv, hp, ?_⟩) hmax
    simp [after_marker, hk]

/-- The marker "ddd" over the five objects "aaa" .. "eee": only "eee" is returned. -/
theorem objects_start_after_strict_witness :
    (bytes "ddd" ≠ []) ∧
    (∀ e ∈ (SQLiteList.objects db_five (bytes "testbucket") [] (bytes "ddd") 1000).results,
      string_lt (bytes "ddd") e.key.name = true ∧ e.key.name ≠ bytes "ddd") ∧
    (SQLiteList.objects db_five (bytes "testbucket") [] (bytes "ddd") 1000).results.map
      (fun e => e.key.name) = [bytes "eee"] :=
  ⟨by decide,
   (objects_start_after_strict db_five (bytes "testbucket") [] (bytes "ddd") 1000
      (by decide)).1,
   by decide⟩

/-- Storing the rows of the objects table in another order does not change the rows of a
bucket up to order. -/
theorem get_objects_perm {db : Database} {stored : List DBObjectQueryResult}
    (hp : stored.Perm db.objects) (bucket_id : std_string) :
    (SQLiteObjects.get_objects { db with objects := stored } bucket_id).Perm
      (SQLiteObjects.get_objects db bucket_id) := by
  rw [get_objects_eq, get_objects_eq]
  exact (hp.filter _).map _

theorem remaining_rows_perm_of_perm {db : Database} {stored : List DBObjectQueryResult}
    (hp : stored.Perm db.objects) (bucket_id pfx start_after : std_string) :
    (remaining_rows { db with objects := stored } bucket_id pfx start_after).Perm
      (remaining_rows db bucket_id pfx start_after) := by
  refine (remaining_rows_perm _ bucket_id pfx start_after).trans
    (List.Perm.trans ?_ (remaining_rows_perm db bucket_id pfx start_after).symm)
  apply List.Perm.filter
  unfold resolve_objects
  exact (get_objects_perm hp bucket_id).filterMap _

/-- C4: when names are unique within the bucket (the schema constraint of the objects
table), the names of the returned entries are in strictly ascending bytewise order, hence
without repetition; and the outcome of the listing is the same for every order in which
the rows of the objects table are stored. -/
theorem objects_results_strictly_ascending (db : Database)
    (bucket_id pfx start_after : std_string) (max : Nat)
    (hu : names_unique db bucket_id) :
    ((SQLiteList.objects db bucket_id pfx start_after max).results.map
        (fun e => e.key.name)).Pairwise (fun a b => string_lt a b = true) ∧
    ((SQLiteList.objects db bucket_id pfx start_after max).results.map
        (fun e => e.key.name)).Nodup ∧
    (∀ stored : List DBObjectQueryResult, stored.Perm db.objects →
      SQLiteList.objects { db with objects := stored } bucket_id pfx start_after max =
        SQLiteList.objects db bucket_id pfx start_after max) := by
  have hstrict : ((SQLiteList.objects db bucket_id pfx start_after max).results.map
      (fun e => e.key.name)).Pairwise (fun a b => string_lt a b = true) := by
    rw [objects_results_eq, List.map_map, List.pairwise_map]
    exact (remaining_rows_strict hu pfx start_after).sublist (List.take_sublist _ _)
  refine ⟨hstrict, ?_, ?_⟩
  · refine hstrict.imp ?_
    intro a b hab hEq
    rw [hEq, string_lt_irrefl] at hab
    exact Bool.false_ne_true hab
  · intro stored hp
    have hu2 : names_unique { db with objects := stored } bucket_id := by
      unfold names_unique
      exact ((get_objects_perm hp bucket_id).map _).symm.nodup hu
    haveI : IsAntisymm (DBObject × DBVersionedObject)
        (fun a b => string_lt a.1.name b.1.name = true) :=
      ⟨fun a b hab hba => by rw [string_lt_asymm hab] at hba; exact absurd hba Bool.false_ne_true⟩
    have hEq : remaining_rows { db with objects := stored } bucket_id pfx start_after =
        remaining_rows db bucket_id pfx start_after :=
      List.eq_of_perm_of_sorted (remaining_rows_perm_of_perm hp bucket_id pfx start_after)
        (remaining_rows_strict hu2 pfx start_after) (remaining_rows_strict hu pfx start_after)
    unfold SQLiteList.objects
    rw [hEq]

/-- The five objects stored out of order are listed in ascending order. -/
theorem objects_results_strictly_ascending_witness :
    names_unique db_five (bytes "testbucket") ∧
    ((SQLiteList.objects db_five (bytes "testbucket") [] [] 3).results.map
        (fun e => e.key.name)).Pairwise (fun a b => string_lt a b = true) ∧
    (SQLiteList.objects db_five (bytes "testbucket") [] [] 3).results.map
        (fun e => e.key.name) = [bytes "aaa", bytes "bbb", bytes "ccc"] :=
  ⟨by unfold names_unique; decide,
   (objects_results_strictly_ascending db_five (bytes "testbucket") [] [] 3
      (by unfold names_unique; decide)).1,
   by decide⟩

/-- C5: the listing returns at most `max` entries, exactly the minimum of `max` and the
number of visible objects of the bucket that match the prefix and the marker, and they
are the first entries of the ordered sequence a larger `max` returns. -/
theorem objects_returns_first_max (db : Database) (bucket_id pfx start_after : std_string)
    (max : Nat) :
    (SQLiteList.objects db bucket_id pfx start_after max).results.length ≤ max ∧
    (SQLiteList.objects db bucket_id pfx start_after max).results.length =
      min max (eligible_objects db bucket_id pfx start_after).length ∧
    (∀ larger, max ≤ larger →
      (SQLiteList.objects db bucket_id pfx start_after max).results =
        (SQLiteList.objects db bucket_id pfx start_after larger).results.take max) := by
  refine ⟨?_, objects_results_length db bucket_id pfx start_after max, ?_⟩
  · rw [objects_results_length]
    omega
  · intro larger hl
    rw [objects_results_eq, objects_results_eq, ← List.map_take, List.take_take,
      Nat.min_eq_left hl]


theorem has_visible_version_iff (db : Database) (o : DBObject) :
    has_visible_version db o = true ↔
      ∃ v ∈ db.versioned_objects, v.object_id = o.uuid ∧
        v.object_state = ObjectState.COMMITTED := by
  simp [has_visible_version, visible]

theorem authoritative_version_complete {db : Database} {o : DBObject} {v : DBVersionedObject}
    (h : is_authoritative db o v) : authoritative_version db.versioned_objects o = some v := by
  obtain ⟨earlier, later, hl, hid, hv, hlater⟩ := h
  unfold authoritative_version visible_versions
  have hnil : later.filter (fun w => decide (w.object_id = o.uuid) && visible w) = [] := by
    rw [List.filter_eq_nil_iff]
    intro w hw hc
    simp only [Bool.and_eq_true, decide_eq_true_eq] at hc
    exact hlater w hw hc
  rw [hl, List.filter_append, List.filter_cons, hnil]
  simp [hid, hv]

/-- In a strictly ascending sequence, a row is among the first `n` exactly when it is in
the sequence and fewer than `n` rows have a smaller name. -/
theorem mem_take_iff_rank {l : List (DBObject × DBVersionedObject)}
    (hs : l.Pairwise (fun a b => string_lt a.1.name b.1.name = true)) (n : Nat)
    (p : DBObject × DBVersionedObject) :
    p ∈ l.take n ↔
      p ∈ l ∧ (l.filter (fun q => string_lt q.1.name p.1.name)).length < n := by
  induction l generalizing n with
  | nil => simp
  | cons x xs ih =>
    obtain ⟨hx, hxs⟩ := List.pairwise_cons.mp hs
    cases n with
    | zero => simp
    | succ k =>
      rw [List.take_succ_cons, List.mem_cons, List.mem_cons]
      constructor
      · rintro (rfl | hp)
        · refine ⟨Or.inl rfl, ?_⟩
          have hnil : (p :: xs).filter (fun q => string_lt q.1.name p.1.name) = [] := by
            rw [List.filter_eq_nil_iff]
            intro q hq
            rcases List.mem_cons.mp hq with rfl | hq
            · simp [string_lt_irrefl]
            · simp [string_lt_asymm (hx q hq)]
          rw [hnil]
          exact Nat.succ_pos k
        · have h := (ih hxs k).mp hp
          refine ⟨Or.inr h.1, ?_⟩
          rw [List.filter_cons, if_pos (hx p h.1), List.length_cons]
          exact Nat.succ_lt_succ h.2
      · rintro ⟨hp | hp, hlen⟩
        · exact Or.inl hp
        · rw [List.filter_cons, if_pos (hx p hp), List.length_cons] at hlen
          exact Or.inr ((ih hxs k).mpr ⟨hp, Nat.lt_of_succ_lt_succ hlen⟩)

/-- The number of remaining rows with a name below `name` is the number of eligible
objects with a name below `name`. -/
theorem remaining_rows_rank (db : Database) (bucket_id pfx start_after name : std_string) :
    ((remaining_rows db bucket_id pfx start_after).filter
        (fun q => string_lt q.1.name name)).length =
      ((eligible_objects db bucket_id pfx start_after).filter
        (fun o => string_lt o.name name)).length := by
  have hp := ((remaining_rows_fst_perm db bucket_id pfx start_after).filter
    (fun o => string_lt o.name name)).length_eq
  rw [List.filter_map, List.length_map] at hp
  exact hp

/-- C6: with names unique within the bucket, an object of the bucket appears in a listing
result (an entry carries its name) if and only if it has at least one version in the
committed state, its name starts with the prefix and lies after the marker, and fewer
than `max` such objects have a smaller name (the cut); an object with no version, or
with no committed version, appears in no listing at all. -/
theorem object_listed_iff_visible (db : Database) (bucket_id pfx start_after : std_string)
    (max : Nat) (o : DBObject) (hu : names_unique db bucket_id)
    (ho : o ∈ SQLiteObjects.get_objects db bucket_id) :
    ((∃ e ∈ (SQLiteList.objects db bucket_id pfx start_after max).results,
        e.key.name = o.name) ↔
      (∃ v ∈ db.versioned_objects, v.object_id = o.uuid ∧
        v.object_state = ObjectState.COMMITTED) ∧
      starts_with o.name pfx = true ∧ after_marker start_after o.name = true ∧
      ((eligible_objects db bucket_id pfx start_after).filter
        (fun other => string_lt other.name o.name)).length < max) ∧
    ((¬ ∃ v ∈ db.versioned_objects, v.object_id = o.uuid ∧
        v.object_state = ObjectState.COMMITTED) →
      ∀ (anypfx anymarker : std_string) (anymax : Nat),
        ¬ ∃ e ∈ (SQLiteList.objects db bucket_id anypfx anymarker anymax).results,
          e.key.name = o.name) := by
  have key : ∀ (pf sa : std_string) (n : Nat),
      (∃ e ∈ (SQLiteList.objects db bucket_id pf sa n).results, e.key.name = o.name) ↔
      (∃ v ∈ db.versioned_objects, v.object_id = o.uuid ∧
        v.object_state = ObjectState.COMMITTED) ∧
      starts_with o.name pf = true ∧ after_marker sa o.name = true ∧
      ((eligible_objects db bucket_id pf sa).filter
        (fun other => string_lt other.name o.name)).length < n := by
    intro pf sa n
    rw [← has_visible_version_iff, ← remaining_rows_rank]
    constructor
    · rintro ⟨e, he, hname⟩
      rw [objects_results_eq, List.mem_map] at he
      obtain ⟨p, hp, rfl⟩ := he
      have hrank := (mem_take_iff_rank (remaining_rows_strict hu pf sa) n p).mp hp
      obtain ⟨⟨hobj, hauth⟩, hmark, hpfx⟩ := mem_remaining_rows.mp hrank.1
      have hpo : p.1 = o := List.inj_on_of_nodup_map hu hobj ho hname
      rw [hpo] at hauth hmark hpfx hrank
      refine ⟨?_, hpfx, hmark, hrank.2⟩
      rw [← authoritative_version_isSome, hauth]
      rfl
    · rintro ⟨hv, hpfx, hmark, hrank⟩
      have hel : o ∈ eligible_objects db bucket_id pf sa :=
        mem_eligible_objects.mpr ⟨ho, hv, hpfx, hmark⟩
      have hm := (remaining_rows_fst_perm db bucket_id pf sa).mem_iff.mpr hel
      obtain ⟨p, hp, hpo⟩ := List.mem_map.mp hm
      refine ⟨make_entry p.1 p.2, ?_, by rw [hpo]; rfl⟩
      rw [objects_results_eq]
      refine List.mem_map.mpr ⟨p, ?_, rfl⟩
      rw [mem_take_iff_rank (remaining_rows_strict hu pf sa), hpo]
      exact ⟨hp, hrank⟩
  refine ⟨key pfx start_after max, ?_⟩
  intro hnone anypfx anymarker anymax hex
  exact hnone ((key anypfx anymarker anymax).mp hex).1

/-- The object "hidden", whose versions are pending or deleted, is in no listing. -/
theorem object_listed_iff_visible_witness :
    names_unique db_versions (bytes "testbucket") ∧
    (⟨⟨2⟩, bytes "testbucket", bytes "hidden"⟩ : DBObject) ∈
      SQLiteObjects.get_objects db_versions (bytes "testbucket") ∧
    (∀ (anypfx anymarker : std_string) (anymax : Nat),
      ¬ ∃ e ∈ (SQLiteList.objects db_versions (bytes "testbucket") anypfx anymarker
          anymax).results, e.key.name = bytes "hidden") :=
  ⟨by unfold names_unique; decide, by decide,
   (object_listed_iff_visible db_versions (bytes "testbucket") [] [] 10
      ⟨⟨2⟩, bytes "testbucket", bytes "hidden"⟩ (by unfold names_unique; decide)
      (by decide)).2 (by decide)⟩

/-- C7: every returned entry is the entry of an object of the bucket: its key name is the
name of the object, and its mtime, etag and size are those of the most recently written
visible version of that object, which is the only version with that property; the
accounted size equals that size. -/
theorem entry_sourced_from_authoritative (db : Database)
    (bucket_id pfx start_after : std_string) (max : Nat) :
    ∀ e ∈ (SQLiteList.objects db bucket_id pfx start_after max).results,
      ∃ o ∈ SQLiteObjects.get_objects db bucket_id, ∃ v,
        is_authoritative db o v ∧ (∀ w, is_authoritative db o w → w = v) ∧
        e.key.name = o.name ∧ e.meta.mtime = v.mtime ∧ e.meta.etag = v.etag ∧
        e.meta.size = v.size ∧ e.meta.accounted_size = v.size := by
  intro e he
  obtain ⟨p, hp, rfl⟩ := mem_objects_results he
  obtain ⟨⟨hobj, hauth⟩, _, _⟩ := mem_remaining_rows.mp hp
  refine ⟨p.1, hobj, p.2, authoritative_version_sound hauth, ?_, rfl, rfl, rfl, rfl, rfl⟩
  intro w hw
  have h := authoritative_version_complete hw
  rw [hauth] at h
  exact (Option.some.inj h).symm

/-- The entry of "file1" carries the fields of its last committed version. -/
theorem entry_sourced_from_authoritative_witness :
    (⟨⟨bytes "file1"⟩, ⟨30, bytes "new", 300, 300⟩⟩ : rgw_bucket_dir_entry) ∈
      (SQLiteList.objects db_versions (bytes "testbucket") [] [] 100).results ∧
    ∃ o ∈ SQLiteObjects.get_objects db_versions (bytes "testbucket"), ∃ v,
      is_authoritative db_versions o v ∧ (∀ w, is_authoritative db_versions o w → w = v) ∧
      bytes "file1" = o.name ∧ 30 = v.mtime ∧ bytes "new" = v.etag ∧
      300 = v.size ∧ 300 = v.size :=
  ⟨by decide,
   entry_sourced_from_authoritative db_versions (bytes "testbucket") [] [] 100
     ⟨⟨bytes "file1"⟩, ⟨30, bytes "new", 300, 300⟩⟩ (by decide)⟩

/-- C8: for a bucket with no row in the objects table the listing succeeds, returns no
entry and reports `truncated = false`, for every prefix, marker and `max` (0 included). -/
theorem objects_empty_bucket (db : Database) (bucket_id pfx start_after : std_string)
    (max : Nat) (hempty : ∀ row ∈ db.objects, row.2.1 ≠ bucket_id) :
    SQLiteList.objects db bucket_id pfx start_after max =
      { ok := true, results := [], truncated := false } := by
  have hobjs : SQLiteObjects.get_objects db bucket_id = [] := by
    rw [get_objects_eq, List.map_eq_nil_iff, List.filter_eq_nil_iff]
    intro row hrow
    simpa using hempty row hrow
  have hrem : remaining_rows db bucket_id pfx start_after = [] := by
    apply List.eq_nil_of_length_eq_zero
    rw [remaining_rows_length]
    unfold eligible_objects
    rw [hobjs]
    rfl
  unfold SQLiteList.objects
  rw [hrem]
  simp

/-- A bucket without rows lists nothing, also with `max = 0`. -/
theorem objects_empty_bucket_witness :
    (∀ row ∈ db_five.objects, row.2.1 ≠ bytes "emptybucket") ∧
    SQLiteList.objects db_five (bytes "emptybucket") (bytes "a") (bytes "b") 0 =
      { ok := true, results := [], truncated := false } :=
  ⟨by decide,
   objects_empty_bucket db_five (bytes "emptybucket") (bytes "a") (bytes "b") 0 (by decide)⟩


/-! ## Entity store of objects and value codec -/

/-- C9: `SQLiteObjects::get_objects(bucket_id)` returns exactly the rows of the objects
table whose bucket id equals the argument, in table order, each converted by the row
constructor of `DBObject` and each as often as the table holds it; no returned record
belongs to another bucket; the result is as long as the number of matching rows; and it
is empty exactly when the table has no row of that bucket. -/
theorem get_objects_exact (db : Database) (bucket_id : std_string) :
    SQLiteObjects.get_objects db bucket_id =
      (db.objects.filter (fun row => decide (row.2.1 = bucket_id))).map
        DBObject.ofQueryResult ∧
    (∀ row : DBObjectQueryResult, row.2.1 = bucket_id →
      ((SQLiteObjects.get_objects db bucket_id).filter
          (fun o => decide (o = DBObject.ofQueryResult row))).length =
        (db.objects.filter (fun r => decide (r = row))).length) ∧
    (∀ o ∈ SQLiteObjects.get_objects db bucket_id, o.bucket_id = bucket_id) ∧
    (SQLiteObjects.get_objects db bucket_id).length =
      db.objects.countP (fun row => decide (row.2.1 = bucket_id)) ∧
    (SQLiteObjects.get_objects db bucket_id = [] ↔
      ∀ row ∈ db.objects, row.2.1 ≠ bucket_id) := by
  have hinj : Function.Injective DBObject.ofQueryResult := by
    intro a b hab
    obtain ⟨a1, a2, a3⟩ := a
    obtain ⟨b1, b2, b3⟩ := b
    simp only [DBObject.ofQueryResult, DBObject.mk.injEq] at hab
    obtain ⟨h1, h2, h3⟩ := hab
    rw [h1, h2, h3]
  refine ⟨get_objects_eq db bucket_id, ?_, ?_, ?_, ?_⟩
  · intro row hrow
    rw [get_objects_eq, List.filter_map, List.length_map, List.filter_filter]
    congr 1
    apply List.filter_congr
    intro r _
    by_cases hr : r = row
    · subst hr
      simp [hrow]
    · have hne : DBObject.ofQueryResult r ≠ DBObject.ofQueryResult row :=
        fun h => hr (hinj h)
      simp [hr, hne]
  · intro o ho
    exact get_objects_bucket_id ho
  · rw [get_objects_eq, List.length_map, List.countP_eq_length_filter]
  · rw [get_objects_eq, List.map_eq_nil_iff, List.filter_eq_nil_iff]
    simp

theorem copy_back_inserter_eq (src : List UInt8) (dest : blob) :
    copy_back_inserter src dest = dest ++ src := by
  unfold copy_back_inserter
  induction src generalizing dest with
  | nil => simp
  | cons c cs ih => simp [ih]

/-- C10: when the bufferlist codec of a type round-trips (decoding the bufferlist that
`encode` fills from empty yields the encoded value, whatever the destination held),
`decode_blob` applied to the bytes `encode_blob` writes into an empty byte vector yields
the value; the vector holds exactly the bytes of the bufferlist and the decoder is handed
exactly the bytes of the vector. -/
theorem decode_blob_encode_blob {T : Type} (c : BufferCodec T)
    (hcodec : ∀ v dest : T, c.decode dest (c.encode v []) = Except.ok v) (v dest : T) :
    decode_blob c (encode_blob c v []) dest = Except.ok v ∧
    encode_blob c v [] = c.encode v [] ∧
    (∀ holder : blob, decode_blob c holder dest = c.decode dest holder) := by
  have henc : encode_blob c v [] = c.encode v [] := by
    simp [encode_blob, copy_back_inserter_eq]
  have hdec : ∀ holder : blob, decode_blob c holder dest = c.decode dest holder := by
    intro holder
    simp [decode_blob, bufferlist_append]
  exact ⟨by rw [hdec, henc]; exact hcodec v dest, henc, hdec⟩

/-- The round trip of the sample flag codec through a blob. -/
theorem decode_blob_encode_blob_witness :
    (∀ v dest : Bool, flag_codec.decode dest (flag_codec.encode v []) = Except.ok v) ∧
    decode_blob flag_codec (encode_blob flag_codec true []) false = Except.ok true ∧
    encode_blob flag_codec true [] = [1] :=
  ⟨by intro v dest; cases v <;> rfl,
   (decode_blob_encode_blob flag_codec (by intro v dest; cases v <;> rfl) true false).1,
   by decide⟩


/-! ## Row projection: reading columns into fields -/

/-- C11: `assign_optional_value(c, d)` leaves `d` unchanged when `c` is absent, for the
byte-vector case whatever the decoder is (it is not invoked); when `c` holds a value `x`
that is not a byte vector it sets `d = x`; when `c` holds a byte vector `b` it sets `d`
to the outcome of `decode_blob(b, d)`. -/
theorem assign_optional_value_cases {α T : Type} (c : BufferCodec T) (d x : α) (dT : T)
    (b : blob) :
    assign_optional_value none d = d ∧
    (∀ anycodec : BufferCodec T, assign_optional_value_blob anycodec none dT = Except.ok dT) ∧
    assign_optional_value (some x) d = x ∧
    assign_optional_value_blob c (some b) dT = decode_blob c b dT := by
  refine ⟨rfl, ?_, rfl, rfl⟩
  intro anycodec
  rfl

/-- C12, counterexample: with the prior tenant "tenant1", a present empty string column
overwrites the field with the empty string, in `assign_optional_value` and in the row
constructor. -/
theorem assign_optional_value_empty_string_overwrites :
    assign_optional_value (some ([] : std_string)) (bytes "tenant1") ≠ bytes "tenant1" ∧
    (DBOPUserInfo.ofQueryResult
        { sample_default_user with
          uinfo := { sample_default_user.uinfo with
            user_id := { id := [], tenant := bytes "tenant1", ns := [] } } }
        ⟨bytes "alice", some [], none, none, none, none, none, none, none, none, none, none,
         none, none, none, none, none, none, none, none, none, none, none, none, none,
         none⟩).uinfo.user_id.tenant ≠ bytes "tenant1" := by
  constructor <;> decide

/-- C12, as amended: a present string column, empty or not, overwrites the field:
`assign_optional_value` sets the field to the column's string, so after a present empty
string the field equals its prior value `d` only when `d` is empty; only an absent column
leaves `d`. The row constructor does so for tenant, ns, display_name, user_email,
placement_name, placement_storage_class and user_version_tag. -/
theorem assign_optional_value_present_string {τ : RGWTypes} (s d : std_string)
    (dflt : DBOPUserInfo τ) (values : DBUserQueryResult τ) :
    assign_optional_value (some s) d = s ∧
    (assign_optional_value (some ([] : std_string)) d = d ↔ d = []) ∧
    assign_optional_value (none : Option std_string) d = d ∧
    (values.tenant = some [] →
      (DBOPUserInfo.ofQueryResult dflt values).uinfo.user_id.tenant = []) ∧
    (values.ns = some [] → (DBOPUserInfo.ofQueryResult dflt values).uinfo.user_id.ns = []) ∧
    (values.display_name = some [] →
      (DBOPUserInfo.ofQueryResult dflt values).uinfo.display_name = []) ∧
    (values.user_email = some [] →
      (DBOPUserInfo.ofQueryResult dflt values).uinfo.user_email = []) ∧
    (values.placement_name = some [] →
      (DBOPUserInfo.ofQueryResult dflt values).uinfo.default_placement.name = []) ∧
    (values.placement_storage_class = some [] →
      (DBOPUserInfo.ofQueryResult dflt values).uinfo.default_placement.storage_class = []) ∧
    (values.user_version_tag = some [] →
      (DBOPUserInfo.ofQueryResult dflt values).user_version.tag = []) := by
  refine ⟨rfl, ⟨fun h => h.symm, fun h => h.symm⟩, rfl, ?_, ?_, ?_, ?_, ?_, ?_, ?_⟩ <;>
    intro h <;> simp [DBOPUserInfo.ofQueryResult, h, assign_optional_value, assign_value]


theorem encode_blob_nil {T : Type} (c : BufferCodec T) (v : T) :
    encode_blob c v [] = c.encode v [] := by
  simp [encode_blob, copy_back_inserter_eq]

theorem foldl_insert_access_key (keys : List std_string) (userid : std_string) (db : Database) :
    keys.foldl (fun db key => insert_access_key db key userid) db =
      { db with access_keys := db.access_keys ++
          keys.map (fun key => { access_key := key, user_id := userid }) } := by
  induction keys generalizing db with
  | nil => simp
  | cons k ks ih =>
    rw [List.foldl_cons, ih]
    simp [insert_access_key]

theorem store_access_keys_eq {τ : RGWTypes} (db : Database) (user : DBOPUserInfo τ) :
    SQLiteUsers._store_access_keys db user =
      { db with
        access_keys := (db.access_keys.filter
            (fun row => decide (row.user_id ≠ user.uinfo.user_id.id))) ++
          user.uinfo.access_keys.map
            (fun key => { access_key := key.1, user_id := user.uinfo.user_id.id }) } := by
  unfold SQLiteUsers._store_access_keys
  have h := foldl_insert_access_key (user.uinfo.access_keys.map Prod.fst)
    user.uinfo.user_id.id (SQLiteUsers._remove_access_keys db user.uinfo.user_id.id)
  rw [List.foldl_map] at h
  rw [h]
  simp [SQLiteUsers._remove_access_keys, List.map_map, Function.comp_def]

theorem store_user_eq {τ : RGWTypes} (cdc : UserCodecs τ) (db : Database)
    (user : DBOPUserInfo τ) :
    SQLiteUsers.store_user cdc db user =
      { db with
        users := db.users.filter (fun r => decide (r.user_id ≠ user.uinfo.user_id.id)) ++
          [SQLiteUsers.store_user_row cdc user],
        access_keys := (db.access_keys.filter
            (fun row => decide (row.user_id ≠ user.uinfo.user_id.id))) ++
          user.uinfo.access_keys.map
            (fun key => { access_key := key.1, user_id := user.uinfo.user_id.id }) } := by
  unfold SQLiteUsers.store_user
  rw [store_access_keys_eq]
  rfl

theorem remove_user_eq (db : Database) (userid : std_string) :
    SQLiteUsers.remove_user db userid =
      { db with
        users := db.users.filter (fun r => decide (r.user_id ≠ userid)),
        access_keys := db.access_keys.filter (fun row => decide (row.user_id ≠ userid)) } :=
  rfl

theorem sql_eq_some {α : Type} [DecidableEq α] (a b : α) :
    sql_eq (some a) (some b) = decide (a = b) :=
  rfl

/-- The lookup by user id finds nothing when no row carries the id. -/
theorem get_user_of_no_row {τ : RGWTypes} (cdc : UserCodecs τ) (binding : ColumnBinding τ)
    (dflt : DBOPUserInfo τ) (db : Database) (userid : std_string)
    (h : db.users.filter (fun row => decide (row.user_id = userid)) = []) :
    SQLiteUsers.get_user cdc binding dflt db userid = Outcome.ok none := by
  simp only [SQLiteUsers.get_user, GetSQLiteSingleObject, sql_eq_some, h]

/-- The lookup by user id builds the record of the first row that carries the id. -/
theorem get_user_of_first_row {τ : RGWTypes} (cdc : UserCodecs τ) (binding : ColumnBinding τ)
    (dflt : DBOPUserInfo τ) (db : Database) (userid : std_string) (row : UsersRow)
    (rest : List UsersRow)
    (h : db.users.filter (fun row => decide (row.user_id = userid)) = row :: rest) :
    SQLiteUsers.get_user cdc binding dflt db userid =
      (DBOPUserInfo.ofRow cdc binding dflt row).bind (fun target => Outcome.ok (some target)) := by
  simp only [SQLiteUsers.get_user, GetSQLiteSingleObject, sql_eq_some, h]

/-- C14: for every user record `u`, the row `store_user` writes holds NULL in the column
`assumed_role_arn`, which is at position 22 counting from 0 (the 23rd of 26 columns);
every scalar field is in its column unchanged and every structured field is in its
column as the bytes `encode_blob` produces for it from an empty vector. -/
theorem store_user_row_columns {τ : RGWTypes} (cdc : UserCodecs τ) (u : DBOPUserInfo τ) :
    (SQLiteUsers.store_user_row cdc u).assumed_role_arn = none ∧
    (SQLiteUsers.store_user_row cdc u).columns.length = 26 ∧
    (SQLiteUsers.store_user_row cdc u).columns.get? 22 = some SqlValue.null ∧
    SQLiteUsers.store_user_row cdc u =
      { user_id := u.uinfo.user_id.id,
        tenant := some u.uinfo.user_id.tenant,
        ns := some u.uinfo.user_id.ns,
        display_name := some u.uinfo.display_name,
        user_email := some u.uinfo.user_email,
        access_keys := some (encode_blob cdc.access_key_map u.uinfo.access_keys []),
        swift_keys := some (encode_blob cdc.access_key_map u.uinfo.swift_keys []),
        sub_users := some (encode_blob cdc.sub_user_map u.uinfo.subusers []),
        suspended := some u.uinfo.suspended,
        max_buckets := some u.uinfo.max_buckets,
        op_mask := some u.uinfo.op_mask,
        user_caps := some (encode_blob cdc.user_caps u.uinfo.caps []),
        admin := some u.uinfo.admin,
        system := some u.uinfo.system,
        placement_name := some u.uinfo.default_placement.name,
        placement_storage_class := some u.uinfo.default_placement.storage_class,
        placement_tags := some (encode_blob cdc.string_list u.uinfo.placement_tags []),
        bucket_quota := some (encode_blob cdc.quota_info u.uinfo.quota.bucket_quota []),
        temp_url_keys := some (encode_blob cdc.int_string_map u.uinfo.temp_url_keys []),
        user_quota := some (encode_blob cdc.quota_info u.uinfo.quota.user_quota []),
        type := some u.uinfo.type,
        mfa_ids := some (encode_blob cdc.string_set u.uinfo.mfa_ids []),
        assumed_role_arn := none,
        user_attrs := some (encode_blob cdc.attrs u.user_attrs []),
        user_version := some u.user_version.ver,
        user_version_tag := some u.user_version.tag } := by
  refine ⟨rfl, rfl, rfl, rfl⟩

/-! ## Reading blob and identifier columns -/

/-- C15, counterexample: reading a NULL column, or a zero-length blob (whose data pointer
is null), as a blob type through `get_col_from_db` aborts the process. -/
theorem get_col_from_db_aborts_on_null :
    get_col_from_db flag_codec false none 3 =
      Outcome.aborts (bytes "cannot make blob value from NULL") ∧
    get_col_from_db flag_codec false (some []) 3 =
      Outcome.aborts (bytes "Invalid blob at column : (3)") := by
  refine ⟨rfl, ?_⟩
  decide

/-- C15, as amended: `get_col_from_db` for a blob type aborts the process when the column
is NULL ("cannot make blob value from NULL") and when its data pointer is null, as for a
zero-length blob ("Invalid blob at column : (inx)"); for a non-empty blob it ends as the
decoder ends on exactly the bytes of the blob, with the decoded value or with the
exception of the decoder, which reaches the caller. `row_extractor<T>::extract` throws
`std::system_error(ERANGE, "Invalid blob at column : (inx)")` for NULL and for a null
data pointer, and for a non-empty blob it ends as the decoder ends. -/
theorem get_col_from_db_outcomes {T : Type} (c : BufferCodec T) (ret : T)
    (col : Option blob) (inx : Nat) :
    (col = none →
      get_col_from_db c ret col inx =
        Outcome.aborts (bytes "cannot make blob value from NULL")) ∧
    (col = some [] →
      get_col_from_db c ret col inx = Outcome.aborts (invalid_blob_message inx)) ∧
    (∀ b bs, col = some (b :: bs) →
      get_col_from_db c ret col inx = Outcome.ofDecode (c.decode ret (b :: bs))) ∧
    (∀ b bs what, col = some (b :: bs) → c.decode ret (b :: bs) = Except.error what →
      get_col_from_db c ret col inx = Outcome.throws (Exception.buffer_error what)) ∧
    ((col = none ∨ col = some []) →
      row_extractor.extract c ret col inx =
        Outcome.throws (Exception.system_error ERANGE (invalid_blob_message inx))) ∧
    (∀ b bs, col = some (b :: bs) →
      row_extractor.extract c ret col inx = Outcome.ofDecode (c.decode ret (b :: bs))) := by
  have hcol : ∀ (b : UInt8) (bs : List UInt8),
      get_col_from_db c ret (some (b :: bs)) inx =
        Outcome.ofDecode (c.decode ret (b :: bs)) := by
    intro b bs
    have hneg : ¬ ((bs.length : Int) + 1 < 0) := by omega
    simp [get_col_from_db, sqlite3_column_is_null, sqlite3_column_blob,
      sqlite3_column_bytes, hneg, decode_blob_sized, bufferlist_append]
  have hext : ∀ (b : UInt8) (bs : List UInt8),
      row_extractor.extract c ret (some (b :: bs)) inx =
        Outcome.ofDecode (c.decode ret (b :: bs)) := by
    intro b bs
    have hneg : ¬ ((bs.length : Int) + 1 < 0) := by omega
    simp [row_extractor.extract, sqlite3_column_blob, sqlite3_column_bytes, hneg,
      decode_blob_sized, bufferlist_append]
  refine ⟨?_, ?_, ?_, ?_, ?_, ?_⟩
  · intro h
    subst h
    rfl
  · intro h
    subst h
    rfl
  · intro b bs h
    subst h
    exact hcol b bs
  · intro b bs what h hdec
    subst h
    rw [hcol, hdec]
    rfl
  · rintro (h | h)
    · subst h
      rfl
    · subst h
      rfl
  · intro b bs h
    subst h
    exact hext b bs

theorem text_infix_incorrect_uuid_message (text : std_string) :
    text <:+: incorrect_uuid_message text :=
  ⟨bytes "incorrect uuid string (", bytes ")", rfl⟩

/-- C16: decoding a text as an identifier returns an identifier exactly when
`uuid_d::parse` accepts the text (as the C string it is handed), and then it is the parsed
identifier; when `parse` rejects it, and for a null text pointer, the call throws
`std::system_error(ERANGE)` whose message contains the offending text, or "nullptr"; no
other identifier is ever returned. This holds for `row_extractor<uuid_d>::extract`,
`get_col_from_db` and `get_val_from_db`. -/
theorem uuid_d_decoding (parse : std_string → Option uuid_d) (s : std_string) :
    (∀ u, row_extractor_uuid_d.extract_column parse (some s) = Outcome.ok u ↔
      parse (c_str s) = some u) ∧
    (parse (c_str s) = none →
      row_extractor_uuid_d.extract_column parse (some s) =
        Outcome.throws (Exception.system_error ERANGE (incorrect_uuid_message (c_str s))) ∧
      c_str s <:+: incorrect_uuid_message (c_str s)) ∧
    (row_extractor_uuid_d.extract_column parse none =
        Outcome.throws
          (Exception.system_error ERANGE (bytes "incorrect uuid string (nullptr)")) ∧
      bytes "nullptr" <:+: bytes "incorrect uuid string (nullptr)") ∧
    (∀ u, get_col_from_db_uuid_d parse s = Outcome.ok u ↔ parse (c_str s) = some u) ∧
    (∀ u, get_val_from_db_uuid_d parse s = Outcome.ok u ↔ parse (c_str s) = some u) ∧
    (parse (c_str s) = none →
      get_col_from_db_uuid_d parse s =
        Outcome.throws (Exception.system_error ERANGE (incorrect_uuid_message s)) ∧
      get_val_from_db_uuid_d parse s =
        Outcome.throws (Exception.system_error ERANGE (incorrect_uuid_message s)) ∧
      s <:+: incorrect_uuid_message s) := by
  refine ⟨?_, ?_, ⟨?_, ?_⟩, ?_, ?_, ?_⟩
  · intro u
    simp only [row_extractor_uuid_d.extract_column, row_extractor_uuid_d.extract,
      Option.map_some']
    cases parse (c_str s) <;> simp
  · intro h
    refine ⟨?_, text_infix_incorrect_uuid_message _⟩
    simp only [row_extractor_uuid_d.extract_column, row_extractor_uuid_d.extract,
      Option.map_some', h]
  · have hmsg : incorrect_uuid_message (bytes "nullptr") =
        bytes "incorrect uuid string (nullptr)" := by decide
    simp only [row_extractor_uuid_d.extract_column, row_extractor_uuid_d.extract,
      Option.map_none', hmsg]
  · have hmsg : incorrect_uuid_message (bytes "nullptr") =
        bytes "incorrect uuid string (nullptr)" := by decide
    rw [← hmsg]
    exact text_infix_incorrect_uuid_message _
  · intro u
    simp only [get_col_from_db_uuid_d]
    cases parse (c_str s) <;> simp
  · intro u
    simp only [get_val_from_db_uuid_d]
    cases parse (c_str s) <;> simp
  · intro h
    refine ⟨?_, ?_, text_infix_incorrect_uuid_message _⟩
    · simp only [get_col_from_db_uuid_d, h]
    · simp only [get_val_from_db_uuid_d, h]

/-! ## Single-row lookups -/

/-- C17: a single-row lookup returns the empty optional, and no error, exactly when no
row matches the key; when rows match, the result is built from the first matching row in
query order, however many match. This holds for `GetSQLiteSingleObject` and for each of
its callers, `get_user` (key `user_id`), `get_user_by_email` (key `user_email`, which
can be NULL and then matches no email) and `get_object(uuid)` (key: the text of the
uuid), and for `SQLiteObjects::get_object(bucket_id, name)`. -/
theorem single_row_lookup {Row Target KeyType : Type} [DecidableEq KeyType]
    (table : List Row) (key : Row → Option KeyType) (mk : Row → Outcome Target)
    (key_value : Option KeyType) {τ : RGWTypes} (cdc : UserCodecs τ)
    (binding : ColumnBinding τ) (dflt : DBOPUserInfo τ) (db : Database)
    (userid bucket_id object_name email : std_string) (uuid_to_string : uuid_d → std_string)
    (uuid : uuid_d) :
    (GetSQLiteSingleObject table key mk key_value = Outcome.ok none ↔
      ∀ row ∈ table, sql_eq (key row) key_value = false) ∧
    (∀ earlier row later, table = earlier ++ row :: later →
      (∀ r ∈ earlier, sql_eq (key r) key_value = false) →
      sql_eq (key row) key_value = true →
      GetSQLiteSingleObject table key mk key_value =
        (mk row).bind (fun target => Outcome.ok (some target))) ∧
    (SQLiteUsers.get_user cdc binding dflt db userid = Outcome.ok none ↔
      ∀ row ∈ db.users, row.user_id ≠ userid) ∧
    (∀ earlier row later, db.users = earlier ++ row :: later →
      (∀ r ∈ earlier, r.user_id ≠ userid) → row.user_id = userid →
      SQLiteUsers.get_user cdc binding dflt db userid =
        (DBOPUserInfo.ofRow cdc binding dflt row).bind
          (fun target => Outcome.ok (some target))) ∧
    (SQLiteObjects.get_object_by_name db bucket_id object_name = none ↔
      ∀ row ∈ db.objects, ¬ (row.2.1 = bucket_id ∧ row.2.2 = object_name)) ∧
    (∀ earlier row later, db.objects = earlier ++ row :: later →
      (∀ r ∈ earlier, ¬ (r.2.1 = bucket_id ∧ r.2.2 = object_name)) →
      row.2.1 = bucket_id → row.2.2 = object_name →
      SQLiteObjects.get_object_by_name db bucket_id object_name =
        some (DBObject.ofQueryResult row)) ∧
    (SQLiteUsers.get_user_by_email cdc binding dflt db email = Outcome.ok none ↔
      ∀ row ∈ db.users, row.user_email ≠ some email) ∧
    (∀ earlier row later, db.users = earlier ++ row :: later →
      (∀ r ∈ earlier, r.user_email ≠ some email) → row.user_email = some email →
      SQLiteUsers.get_user_by_email cdc binding dflt db email =
        (DBOPUserInfo.ofRow cdc binding dflt row).bind
          (fun target => Outcome.ok (some target))) ∧
    (SQLiteObjects.get_object uuid_to_string db uuid = Outcome.ok none ↔
      ∀ row ∈ db.objects, uuid_to_string row.1 ≠ uuid_to_string uuid) ∧
    (∀ earlier row later, db.objects = earlier ++ row :: later →
      (∀ r ∈ earlier, uuid_to_string r.1 ≠ uuid_to_string uuid) →
      uuid_to_string row.1 = uuid_to_string uuid →
      SQLiteObjects.get_object uuid_to_string db uuid =
        Outcome.ok (some (DBObject.ofQueryResult row))) := by
  have hemail : ∀ c : Option std_string, sql_eq c (some email) = false ↔ c ≠ some email := by
    intro c
    cases c with
    | none => simp [sql_eq]
    | some a => simp [sql_eq_some]
  have generic_none : ∀ {R Tg K : Type} [DecidableEq K] (tb : List R) (k : R → Option K)
      (m : R → Outcome Tg) (kv : Option K),
      GetSQLiteSingleObject tb k m kv = Outcome.ok none ↔
        ∀ row ∈ tb, sql_eq (k row) kv = false := by
    intro R Tg K _ tb k m kv
    unfold GetSQLiteSingleObject
    cases hrows : tb.filter (fun row => sql_eq (k row) kv) with
    | nil =>
      simp only [true_iff]
      intro row hrow
      have h := List.filter_eq_nil_iff.mp hrows row hrow
      simpa using h
    | cons row rest =>
      have hmem : row ∈ tb.filter (fun row => sql_eq (k row) kv) := by simp [hrows]
      have hrow := List.mem_filter.mp hmem
      constructor
      · intro h
        cases hm : m row <;> simp [hm, Outcome.bind] at h
      · intro h
        have hf := h row hrow.1
        rw [hrow.2] at hf
        exact absurd hf (by decide)
  have generic_first : ∀ {R Tg K : Type} [DecidableEq K] (tb : List R) (k : R → Option K)
      (m : R → Outcome Tg) (kv : Option K) (earlier : List R) (row : R) (later : List R),
      tb = earlier ++ row :: later → (∀ r ∈ earlier, sql_eq (k r) kv = false) →
      sql_eq (k row) kv = true →
      GetSQLiteSingleObject tb k m kv = (m row).bind (fun target => Outcome.ok (some target)) := by
    intro R Tg K _ tb k m kv earlier row later htb hearlier hrow
    unfold GetSQLiteSingleObject
    have hnil : earlier.filter (fun row => sql_eq (k row) kv) = [] := by
      rw [List.filter_eq_nil_iff]
      intro r hr
      simp [hearlier r hr]
    simp only [htb, List.filter_append, hnil, List.nil_append, List.filter_cons, hrow, if_true]
  refine ⟨generic_none table key mk key_value, generic_first table key mk key_value, ?_, ?_,
    ?_, ?_, ?_, ?_, ?_, ?_⟩
  · unfold SQLiteUsers.get_user
    rw [generic_none]
    simp [sql_eq_some]
  · intro earlier row later hdb hearlier hrow
    unfold SQLiteUsers.get_user
    exact generic_first _ _ _ _ earlier row later hdb
      (fun r hr => by simpa [sql_eq_some] using hearlier r hr) (by simp [sql_eq_some, hrow])
  · unfold SQLiteObjects.get_object_by_name
    cases hrows : db.objects.filter
        (fun row => decide (row.2.1 = bucket_id) && decide (row.2.2 = object_name)) with
    | nil =>
      simp only [true_iff]
      intro row hrow
      have h := List.filter_eq_nil_iff.mp hrows row hrow
      simpa using h
    | cons row rest =>
      have hmem : row ∈ db.objects.filter
          (fun row => decide (row.2.1 = bucket_id) && decide (row.2.2 = object_name)) := by
        simp [hrows]
      have hrow := List.mem_filter.mp hmem
      simp only [false_iff, reduceCtorEq]
      intro h
      apply h row hrow.1
      simpa using hrow.2
  · intro earlier row later hdb hearlier hb hn
    unfold SQLiteObjects.get_object_by_name
    have hnil : earlier.filter
        (fun row => decide (row.2.1 = bucket_id) && decide (row.2.2 = object_name)) = [] := by
      rw [List.filter_eq_nil_iff]
      intro r hr
      simpa using hearlier r hr
    simp [hdb, List.filter_append, hnil, List.filter_cons, hb, hn]
  · unfold SQLiteUsers.get_user_by_email
    rw [generic_none]
    exact ⟨fun h row hrow => (hemail _).mp (h row hrow),
      fun h row hrow => (hemail _).mpr (h row hrow)⟩
  · intro earlier row later hdb hearlier hrow
    unfold SQLiteUsers.get_user_by_email
    exact generic_first _ _ _ _ earlier row later hdb
      (fun r hr => (hemail _).mpr (hearlier r hr)) (by simp [hrow, sql_eq_some])
  · unfold SQLiteObjects.get_object
    rw [generic_none]
    simp [sql_eq_some]
  · intro earlier row later hdb hearlier hrow
    unfold SQLiteObjects.get_object
    rw [generic_first _ _ _ _ earlier row later hdb
      (fun r hr => by simpa [sql_eq_some] using hearlier r hr) (by simp [sql_eq_some, hrow])]
    rfl


/-! ## The access-key index -/

theorem length_filter_eq_of_nodup {α : Type} [DecidableEq α] {l : List α} (hn : l.Nodup)
    {a : α} (ha : a ∈ l) : (l.filter (fun k => decide (k = a))).length = 1 := by
  induction l with
  | nil => cases ha
  | cons x xs ih =>
    obtain ⟨hx, hxs⟩ := List.nodup_cons.mp hn
    by_cases hxa : x = a
    · subst hxa
      have hnil : xs.filter (fun k => decide (k = x)) = [] := by
        rw [List.filter_eq_nil_iff]
        intro k hk hkx
        simp only [decide_eq_true_eq] at hkx
        exact hx (hkx ▸ hk)
      simp [List.filter_cons, hnil]
    · have hmem : a ∈ xs := by
        rcases List.mem_cons.mp ha with h | h
        · exact absurd h.symm hxa
        · exact h
      simp [List.filter_cons, hxa, ih hxs hmem]

/-- C18: after a successful `store_user(u)` the index rows of `u` are exactly one row
`(k, u.id)` per key `k` of `u.access_keys`, in map order: a row is in the index with the
id of `u` iff it is such a row, every row the index held for `u` under another key is
gone, each current key has exactly one row (the keys of a `std::map` are distinct), and
the rows of every other user, in their order, are unchanged. -/
theorem store_user_rebuilds_index {τ : RGWTypes} (cdc : UserCodecs τ) (db : Database)
    (u : DBOPUserInfo τ) :
    (SQLiteUsers.store_user cdc db u).access_keys.filter
        (fun r => decide (r.user_id = u.uinfo.user_id.id)) =
      u.uinfo.access_keys.map
        (fun key => { access_key := key.1, user_id := u.uinfo.user_id.id }) ∧
    (∀ r : DBAccessKey, (r ∈ (SQLiteUsers.store_user cdc db u).access_keys ∧
        r.user_id = u.uinfo.user_id.id) ↔
      ∃ key ∈ u.uinfo.access_keys, r = { access_key := key.1, user_id := u.uinfo.user_id.id }) ∧
    (∀ r ∈ db.access_keys, r.user_id = u.uinfo.user_id.id →
      r.access_key ∉ u.uinfo.access_keys.map Prod.fst →
      r ∉ (SQLiteUsers.store_user cdc db u).access_keys) ∧
    ((u.uinfo.access_keys.map Prod.fst).Nodup →
      ∀ key ∈ u.uinfo.access_keys,
        ((SQLiteUsers.store_user cdc db u).access_keys.filter
          (fun r => decide (r = { access_key := key.1, user_id := u.uinfo.user_id.id }))).length
          = 1) ∧
    (SQLiteUsers.store_user cdc db u).access_keys.filter
        (fun r => decide (r.user_id ≠ u.uinfo.user_id.id)) =
      db.access_keys.filter (fun r => decide (r.user_id ≠ u.uinfo.user_id.id)) := by
  have hkeys : (SQLiteUsers.store_user cdc db u).access_keys =
      db.access_keys.filter (fun row => decide (row.user_id ≠ u.uinfo.user_id.id)) ++
        u.uinfo.access_keys.map
          (fun key => { access_key := key.1, user_id := u.uinfo.user_id.id }) := by
    rw [store_user_eq]
  have hold : (db.access_keys.filter
      (fun row => decide (row.user_id ≠ u.uinfo.user_id.id))).filter
        (fun r => decide (r.user_id = u.uinfo.user_id.id)) = [] := by
    rw [List.filter_eq_nil_iff]
    intro r hr
    have h := (List.mem_filter.mp hr).2
    simpa using h
  have hnew : (u.uinfo.access_keys.map
      (fun key => ({ access_key := key.1, user_id := u.uinfo.user_id.id } : DBAccessKey))).filter
        (fun r => decide (r.user_id = u.uinfo.user_id.id)) =
      u.uinfo.access_keys.map
        (fun key => { access_key := key.1, user_id := u.uinfo.user_id.id }) := by
    rw [List.filter_eq_self]
    intro r hr
    obtain ⟨key, _, rfl⟩ := List.mem_map.mp hr
    simp
  have hfirst : (SQLiteUsers.store_user cdc db u).access_keys.filter
        (fun r => decide (r.user_id = u.uinfo.user_id.id)) =
      u.uinfo.access_keys.map
        (fun key => { access_key := key.1, user_id := u.uinfo.user_id.id }) := by
    rw [hkeys, List.filter_append, hold, hnew, List.nil_append]
  have hmem : ∀ r : DBAccessKey, (r ∈ (SQLiteUsers.store_user cdc db u).access_keys ∧
        r.user_id = u.uinfo.user_id.id) ↔
      ∃ key ∈ u.uinfo.access_keys,
        r = { access_key := key.1, user_id := u.uinfo.user_id.id } := by
    intro r
    have h : r ∈ (SQLiteUsers.store_user cdc db u).access_keys.filter
        (fun r => decide (r.user_id = u.uinfo.user_id.id)) ↔
        r ∈ (SQLiteUsers.store_user cdc db u).access_keys ∧ r.user_id = u.uinfo.user_id.id := by
      simp [List.mem_filter]
    rw [← h, hfirst, List.mem_map]
    constructor
    · rintro ⟨key, hk, rfl⟩
      exact ⟨key, hk, rfl⟩
    · rintro ⟨key, hk, rfl⟩
      exact ⟨key, hk, rfl⟩
  refine ⟨hfirst, hmem, ?_, ?_, ?_⟩
  · intro r _ hid hkey hin
    obtain ⟨key, hk, rfl⟩ := (hmem r).mp ⟨hin, hid⟩
    exact hkey (List.mem_map.mpr ⟨key, hk, rfl⟩)
  · intro hnodup key hkey
    have hsub : (SQLiteUsers.store_user cdc db u).access_keys.filter
        (fun r => decide (r = { access_key := key.1, user_id := u.uinfo.user_id.id })) =
        ((SQLiteUsers.store_user cdc db u).access_keys.filter
          (fun r => decide (r.user_id = u.uinfo.user_id.id))).filter
          (fun r => decide (r = { access_key := key.1, user_id := u.uinfo.user_id.id })) := by
      rw [List.filter_filter]
      apply List.filter_congr
      intro r _
      by_cases hr : r = { access_key := key.1, user_id := u.uinfo.user_id.id }
      · subst hr
        simp
      · simp [hr]
    rw [hsub, hfirst, List.filter_map, List.length_map]
    have hcount : (u.uinfo.access_keys.filter
        ((fun r : DBAccessKey =>
            decide (r = { access_key := key.1, user_id := u.uinfo.user_id.id })) ∘
          (fun key : std_string × τ.AccessKey =>
            ({ access_key := key.1, user_id := u.uinfo.user_id.id } : DBAccessKey)))).length =
        ((u.uinfo.access_keys.map Prod.fst).filter (fun k => decide (k = key.1))).length := by
      rw [List.filter_map, List.length_map]
      congr 1
      apply List.filter_congr
      intro e _
      simp [Function.comp_def]
    rw [hcount]
    exact length_filter_eq_of_nodup hnodup (List.mem_map.mpr ⟨key, hkey, rfl⟩)
  · rw [hkeys, List.filter_append, List.filter_filter]
    have hnone : (u.uinfo.access_keys.map
        (fun key => ({ access_key := key.1, user_id := u.uinfo.user_id.id } : DBAccessKey))).filter
          (fun r => decide (r.user_id ≠ u.uinfo.user_id.id)) = [] := by
      rw [List.filter_eq_nil_iff]
      intro r hr
      obtain ⟨key, _, rfl⟩ := List.mem_map.mp hr
      simp
    rw [hnone, List.append_nil]
    apply List.filter_congr
    intro r _
    simp

/-- Storing "alice" with the keys AKIA1 and AKIA2 over her old key OLDKEY: her index rows
are the two new ones, "bob" keeps his. -/
theorem store_user_rebuilds_index_witness :
    (sample_alice.uinfo.access_keys.map Prod.fst).Nodup ∧
    (SQLiteUsers.store_user sample_codecs db_users sample_alice).access_keys =
      [{ access_key := bytes "BOBKEY", user_id := bytes "bob" },
       { access_key := bytes "AKIA1", user_id := bytes "alice" },
       { access_key := bytes "AKIA2", user_id := bytes "alice" }] ∧
    ((SQLiteUsers.store_user sample_codecs db_users sample_alice).access_keys.filter
        (fun r => decide (r = { access_key := bytes "AKIA1", user_id := bytes "alice" }))).length
      = 1 :=
  ⟨by decide, by decide,
   (store_user_rebuilds_index sample_codecs db_users sample_alice).2.2.2.1 (by decide)
     (bytes "AKIA1", 11) (by decide)⟩


/-! ## Statement by statement -/

theorem run_statements_none (stmts : List Statement) (db : Database) :
    run_statements stmts none db = (Outcome.ok (), stmts.foldl (fun d stmt => stmt.exec d) db) := by
  induction stmts generalizing db with
  | nil => rfl
  | cons stmt rest ih => simp [run_statements, ih]

theorem run_statements_failing (stmts : List Statement) (n : Nat) (db : Database)
    (hn : n < stmts.length) :
    run_statements stmts (some n) db =
      (Outcome.throws Exception.sqlite_exception,
        (stmts.take n).foldl (fun d stmt => stmt.exec d) db) := by
  induction stmts generalizing db n with
  | nil => simp at hn
  | cons stmt rest ih =>
    cases n with
    | zero => rfl
    | succ k =>
      have hk : k < rest.length := by simpa using hn
      simp [run_statements, ih k (stmt.exec db) hk]

theorem store_user_statements_foldl {τ : RGWTypes} (cdc : UserCodecs τ) (db : Database)
    (u : DBOPUserInfo τ) :
    (SQLiteUsers.store_user_statements cdc u).foldl (fun d stmt => stmt.exec d) db =
      SQLiteUsers.store_user cdc db u := by
  unfold SQLiteUsers.store_user_statements SQLiteUsers.store_user SQLiteUsers._store_access_keys
  simp only [List.foldl_cons, List.foldl_map, Statement.exec]

/-- C19, counterexample: "alice" is stored with new keys and the second statement of
`store_user` (the delete of her old index rows) fails. The call throws, her user row is
already replaced, and the index still holds her old key. -/
theorem store_user_not_atomic :
    (run_statements (SQLiteUsers.store_user_statements sample_codecs sample_alice) (some 1)
        db_users).1 = Outcome.throws Exception.sqlite_exception ∧
    (run_statements (SQLiteUsers.store_user_statements sample_codecs sample_alice) (some 1)
        db_users).2.users ≠ db_users.users ∧
    (run_statements (SQLiteUsers.store_user_statements sample_codecs sample_alice) (some 1)
        db_users).2.access_keys =
      [{ access_key := bytes "OLDKEY", user_id := bytes "alice" },
       { access_key := bytes "BOBKEY", user_id := bytes "bob" }] := by
  refine ⟨by decide, by decide, by decide⟩

/-- C19, as amended: `store_user` executes the replace of the user row, the delete of the
old index rows and one insert per access key as separate statements, in that order and
with no transaction around them. When no statement fails the outcome is the store with
the user row replaced and the index rebuilt. When statement number `n` fails the call
throws and the tables hold exactly the effect of the `n` statements before it: when the
first statement fails, both tables are as before; after any later failure the users
table holds the new row of `u` behind the rows of the other users, and when the second
statement fails the index is still the old one. -/
theorem store_user_statement_by_statement {τ : RGWTypes} (cdc : UserCodecs τ)
    (db : Database) (u : DBOPUserInfo τ) :
    SQLiteUsers.store_user_statements cdc u =
      Statement.REPLACE_INTO_users (SQLiteUsers.store_user_row cdc u) ::
        Statement.DELETE_FROM_access_keys u.uinfo.user_id.id ::
        u.uinfo.access_keys.map
          (fun key => Statement.INSERT_INTO_access_keys key.1 u.uinfo.user_id.id) ∧
    run_statements (SQLiteUsers.store_user_statements cdc u) none db =
      (Outcome.ok (), SQLiteUsers.store_user cdc db u) ∧
    (∀ n, n < (SQLiteUsers.store_user_statements cdc u).length →
      run_statements (SQLiteUsers.store_user_statements cdc u) (some n) db =
        (Outcome.throws Exception.sqlite_exception,
          ((SQLiteUsers.store_user_statements cdc u).take n).foldl
            (fun d stmt => stmt.exec d) db)) ∧
    run_statements (SQLiteUsers.store_user_statements cdc u) (some 0) db =
      (Outcome.throws Exception.sqlite_exception, db) ∧
    (∀ n, 0 < n → n < (SQLiteUsers.store_user_statements cdc u).length →
      (run_statements (SQLiteUsers.store_user_statements cdc u) (some n) db).2.users =
        db.users.filter (fun r => decide (r.user_id ≠ u.uinfo.user_id.id)) ++
          [SQLiteUsers.store_user_row cdc u]) ∧
    (run_statements (SQLiteUsers.store_user_statements cdc u) (some 1) db).2.access_keys =
      db.access_keys := by
  have hexec_users : ∀ (stmts : List Statement) (d : Database),
      (∀ stmt ∈ stmts, (∃ k, stmt = Statement.DELETE_FROM_access_keys k) ∨
        ∃ k i, stmt = Statement.INSERT_INTO_access_keys k i) →
      (stmts.foldl (fun d stmt => stmt.exec d) d).users = d.users := by
    intro stmts
    induction stmts with
    | nil => intro d _; rfl
    | cons stmt rest ih =>
      intro d h
      rw [List.foldl_cons, ih _ (fun x hx => h x (List.mem_cons_of_mem _ hx))]
      rcases h stmt (List.mem_cons_self _ _) with ⟨k, rfl⟩ | ⟨k, i, rfl⟩ <;> rfl
  refine ⟨rfl, ?_, ?_, rfl, ?_, rfl⟩
  · rw [run_statements_none, store_user_statements_foldl]
  · intro n hn
    exact run_statements_failing _ n db hn
  · intro n hpos hn
    rw [run_statements_failing _ n db hn]
    obtain ⟨k, rfl⟩ : ∃ k, n = k + 1 := ⟨n - 1, by omega⟩
    simp only [SQLiteUsers.store_user_statements, List.take_succ_cons, List.foldl_cons]
    rw [hexec_users]
    · rfl
    · intro stmt hstmt
      have hmem := List.mem_of_mem_take hstmt
      rcases List.mem_cons.mp hmem with rfl | hmem
      · exact Or.inl ⟨_, rfl⟩
      · obtain ⟨key, _, rfl⟩ := List.mem_map.mp hmem
        exact Or.inr ⟨_, _, rfl⟩

/-! ## Removing a user -/

/-- C20: after `remove_user(x)`, `get_user(x)` returns the empty optional and the index
holds no row of `x`; the index rows are deleted first, the user row second; the rows of
both tables that belong to other users are kept as they were, in their order, so every
other user is looked up as before; and when `x` is not stored (and the index only
references stored users) both tables are unchanged. -/
theorem remove_user_effect {τ : RGWTypes} (cdc : UserCodecs τ) (binding : ColumnBinding τ)
    (dflt : DBOPUserInfo τ) (db : Database) (x : std_string) :
    SQLiteUsers.get_user cdc binding dflt (SQLiteUsers.remove_user db x) x = Outcome.ok none ∧
    (∀ r ∈ (SQLiteUsers.remove_user db x).access_keys, r.user_id ≠ x) ∧
    SQLiteUsers.remove_user_statements x =
      [Statement.DELETE_FROM_access_keys x, Statement.DELETE_FROM_users x] ∧
    run_statements (SQLiteUsers.remove_user_statements x) none db =
      (Outcome.ok (), SQLiteUsers.remove_user db x) ∧
    (SQLiteUsers.remove_user db x).users =
      db.users.filter (fun row => decide (row.user_id ≠ x)) ∧
    (SQLiteUsers.remove_user db x).access_keys =
      db.access_keys.filter (fun r => decide (r.user_id ≠ x)) ∧
    (SQLiteUsers.remove_user db x).objects = db.objects ∧
    (SQLiteUsers.remove_user db x).versioned_objects = db.versioned_objects ∧
    (∀ y, y ≠ x →
      SQLiteUsers.get_user cdc binding dflt (SQLiteUsers.remove_user db x) y =
        SQLiteUsers.get_user cdc binding dflt db y) ∧
    ((∀ row ∈ db.users, row.user_id ≠ x) → index_references_users db →
      SQLiteUsers.remove_user db x = db) := by
  refine ⟨?_, ?_, rfl, rfl, rfl, rfl, rfl, rfl, ?_, ?_⟩
  · apply get_user_of_no_row
    rw [remove_user_eq, List.filter_filter, List.filter_eq_nil_iff]
    intro row _
    simp
  · intro r hr
    rw [remove_user_eq] at hr
    have h := (List.mem_filter.mp hr).2
    simpa using h
  · intro y hy
    have hfilter : (SQLiteUsers.remove_user db x).users.filter
        (fun row => decide (row.user_id = y)) =
        db.users.filter (fun row => decide (row.user_id = y)) := by
      rw [remove_user_eq, List.filter_filter]
      apply List.filter_congr
      intro row _
      by_cases hrow : row.user_id = y
      · simp [hrow, hy]
      · simp [hrow]
    cases hrows : db.users.filter (fun row => decide (row.user_id = y)) with
    | nil =>
      rw [get_user_of_no_row cdc binding dflt _ y (by rw [hfilter]; exact hrows),
        get_user_of_no_row cdc binding dflt db y hrows]
    | cons row rest =>
      rw [get_user_of_first_row cdc binding dflt _ y row rest (by rw [hfilter]; exact hrows),
        get_user_of_first_row cdc binding dflt db y row rest hrows]
  · intro hnot href
    rw [remove_user_eq]
    have husers : db.users.filter (fun r => decide (r.user_id ≠ x)) = db.users := by
      rw [List.filter_eq_self]
      intro row hrow
      simpa using hnot row hrow
    have hkeys : db.access_keys.filter (fun r => decide (r.user_id ≠ x)) = db.access_keys := by
      rw [List.filter_eq_self]
      intro r hr
      obtain ⟨row, hrow, hid⟩ := href r hr
      have h := hnot row hrow
      rw [hid] at h
      simpa using h
    rw [husers, hkeys]

/-- Removing "alice" from the sample store: she is not found any more, her index row is
gone and the rows of "bob" stay. -/
theorem remove_user_effect_witness :
    SQLiteUsers.get_user sample_codecs sample_binding sample_default_user
        (SQLiteUsers.remove_user db_users (bytes "alice")) (bytes "alice") = Outcome.ok none ∧
    (SQLiteUsers.remove_user db_users (bytes "alice")).access_keys =
      [{ access_key := bytes "BOBKEY", user_id := bytes "bob" }] ∧
    (SQLiteUsers.remove_user db_users (bytes "alice")).users.map (fun row => row.user_id) =
      [bytes "bob"] :=
  ⟨(remove_user_effect sample_codecs sample_binding sample_default_user db_users
      (bytes "alice")).1, by decide, by decide⟩


/-! ## Values handed to the database -/

/-- C23: the string overload of `assign_db_value` leaves the destination unchanged when
the source string is empty and assigns the source when it is not (into a string
destination `d = s`, into an optional one `d = some s`); the generic overload assigns the
source unconditionally, also when the source is a zero or the destination held a value;
with a byte-vector or optional byte-vector destination the result is exactly the bytes
`encode_blob` produces for the source from an empty vector, whatever the destination
held. -/
theorem assign_db_value_overloads {SOURCE DEST T : Type} (convert_string : std_string → DEST)
    (convert : SOURCE → DEST) (c : BufferCodec T) (s ds : std_string)
    (dos : Option std_string) (d : DEST) (x : SOURCE) (v : T) (b : blob) (ob : Option blob) :
    (s = [] → assign_db_value_string convert_string s d = d) ∧
    (s ≠ [] → assign_db_value_string convert_string s d = convert_string s) ∧
    (s ≠ [] → assign_db_value_string id s ds = s) ∧
    (s ≠ [] → assign_db_value_string some s dos = some s) ∧
    assign_db_value convert x d = convert x ∧
    assign_db_value id x x = x ∧
    assign_db_value_blob c v b = encode_blob c v [] ∧
    assign_db_value_optional_blob c v ob = some (encode_blob c v []) ∧
    encode_blob c v [] = c.encode v [] := by
  have hne : s ≠ [] → s.isEmpty = false := by
    intro h
    cases s with
    | nil => exact absurd rfl h
    | cons a l => rfl
  refine ⟨?_, ?_, ?_, ?_, rfl, rfl, rfl, rfl, encode_blob_nil c v⟩
  · intro h
    subst h
    rfl
  · intro h
    simp [assign_db_value_string, hne h]
  · intro h
    simp [assign_db_value_string, hne h]
  · intro h
    simp [assign_db_value_string, hne h]

/-- C25: the record the `DBOPUserInfo` row constructor builds does not depend on column
22 (`assumed_role_arn`): two tuples that agree once that column is blanked give equal
records, in particular a tuple and the same tuple with another value there; and every
field whose column is absent has the value of the default-constructed record. -/
theorem ofQueryResult_ignores_assumed_role_arn {τ : RGWTypes} (dflt : DBOPUserInfo τ)
    (values other : DBUserQueryResult τ) (arn : Option std_string) :
    DBOPUserInfo.ofQueryResult dflt { values with assumed_role_arn := arn } =
      DBOPUserInfo.ofQueryResult dflt values ∧
    ({ values with assumed_role_arn := none } = { other with assumed_role_arn := none } →
      DBOPUserInfo.ofQueryResult dflt values = DBOPUserInfo.ofQueryResult dflt other) ∧
    (values.tenant = none →
      (DBOPUserInfo.ofQueryResult dflt values).uinfo.user_id.tenant =
        dflt.uinfo.user_id.tenant) ∧
    (values.ns = none →
      (DBOPUserInfo.ofQueryResult dflt values).uinfo.user_id.ns = dflt.uinfo.user_id.ns) ∧
    (values.display_name = none →
      (DBOPUserInfo.ofQueryResult dflt values).uinfo.display_name =
        dflt.uinfo.display_name) ∧
    (values.user_email = none →
      (DBOPUserInfo.ofQueryResult dflt values).uinfo.user_email = dflt.uinfo.user_email) ∧
    (values.access_keys = none →
      (DBOPUserInfo.ofQueryResult dflt values).uinfo.access_keys =
        dflt.uinfo.access_keys) ∧
    (values.swift_keys = none →
      (DBOPUserInfo.ofQueryResult dflt values).uinfo.swift_keys = dflt.uinfo.swift_keys) ∧
    (values.sub_users = none →
      (DBOPUserInfo.ofQueryResult dflt values).uinfo.subusers = dflt.uinfo.subusers) ∧
    (values.suspended = none →
      (DBOPUserInfo.ofQueryResult dflt values).uinfo.suspended = dflt.uinfo.suspended) ∧
    (values.max_buckets = none →
      (DBOPUserInfo.ofQueryResult dflt values).uinfo.max_buckets =
        dflt.uinfo.max_buckets) ∧
    (values.op_mask = none →
      (DBOPUserInfo.ofQueryResult dflt values).uinfo.op_mask = dflt.uinfo.op_mask) ∧
    (values.user_caps = none →
      (DBOPUserInfo.ofQueryResult dflt values).uinfo.caps = dflt.uinfo.caps) ∧
    (values.admin = none →
      (DBOPUserInfo.ofQueryResult dflt values).uinfo.admin = dflt.uinfo.admin) ∧
    (values.system = none →
      (DBOPUserInfo.ofQueryResult dflt values).uinfo.system = dflt.uinfo.system) ∧
    (values.placement_name = none →
      (DBOPUserInfo.ofQueryResult dflt values).uinfo.default_placement.name =
        dflt.uinfo.default_placement.name) ∧
    (values.placement_storage_class = none →
      (DBOPUserInfo.ofQueryResult dflt values).uinfo.default_placement.storage_class =
        dflt.uinfo.default_placement.storage_class) ∧
    (values.placement_tags = none →
      (DBOPUserInfo.ofQueryResult dflt values).uinfo.placement_tags =
        dflt.uinfo.placement_tags) ∧
    (values.bucket_quota = none →
      (DBOPUserInfo.ofQueryResult dflt values).uinfo.quota.bucket_quota =
        dflt.uinfo.quota.bucket_quota) ∧
    (values.temp_url_keys = none →
      (DBOPUserInfo.ofQueryResult dflt values).uinfo.temp_url_keys =
        dflt.uinfo.temp_url_keys) ∧
    (values.user_quota = none →
      (DBOPUserInfo.ofQueryResult dflt values).uinfo.quota.user_quota =
        dflt.uinfo.quota.user_quota) ∧
    (values.type = none →
      (DBOPUserInfo.ofQueryResult dflt values).uinfo.type = dflt.uinfo.type) ∧
    (values.mfa_ids = none →
      (DBOPUserInfo.ofQueryResult dflt values).uinfo.mfa_ids = dflt.uinfo.mfa_ids) ∧
    (values.user_attrs = none →
      (DBOPUserInfo.ofQueryResult dflt values).user_attrs = dflt.user_attrs) ∧
    (values.user_version = none →
      (DBOPUserInfo.ofQueryResult dflt values).user_version.ver = dflt.user_version.ver) ∧
    (values.user_version_tag = none →
      (DBOPUserInfo.ofQueryResult dflt values).user_version.tag =
        dflt.user_version.tag) := by
  have hblank : ∀ w : DBUserQueryResult τ,
      DBOPUserInfo.ofQueryResult dflt { w with assumed_role_arn := none } =
        DBOPUserInfo.ofQueryResult dflt w := fun _ => rfl
  refine ⟨rfl, ?_, ?_, ?_, ?_, ?_, ?_, ?_, ?_, ?_, ?_, ?_, ?_, ?_, ?_, ?_, ?_, ?_, ?_, ?_,
    ?_, ?_, ?_, ?_, ?_, ?_⟩
  · intro h
    rw [← hblank values, ← hblank other, h]
  all_goals
    intro h
    simp [DBOPUserInfo.ofQueryResult, assign_optional_value, h]

/-! ## Byte ranges -/

/-- An object size below 2^63 is unchanged by the cast to `off_t`. -/
theorem as_int64_size (obj_size : Nat) (hsize : obj_size < 9223372036854775808) :
    as_int64 (obj_size : Int) = obj_size := by
  unfold as_int64
  omega

/-- The value `obj_size - 1`, computed in `uint64_t` and assigned to an `int64_t`. -/
theorem as_int64_size_pred (obj_size : Nat) (hsize : obj_size < 9223372036854775808) :
    as_int64 (as_uint64 ((obj_size : Int) - 1)) = (obj_size : Int) - 1 := by
  unfold as_int64 as_uint64
  omega

/-- The sum `ofs += obj_size` for a negative `ofs` does not wrap. -/
theorem as_int64_add_size (obj_size : Nat) (ofs : Int) (hsize : obj_size < 9223372036854775808)
    (hlo : -9223372036854775808 ≤ ofs) (hneg : ofs < 0) :
    as_int64 (as_uint64 (as_uint64 ofs + obj_size)) = ofs + obj_size := by
  unfold as_int64 as_uint64
  omega

/-- The outcome of `range_to_ofs` on an object size below 2^63, case by case. -/
theorem range_to_ofs_eq (obj_size : Nat) (ofs end_ : Int)
    (hsize : obj_size < 9223372036854775808) (hlo : -9223372036854775808 ≤ ofs) :
    Object.range_to_ofs obj_size ofs end_ =
      if ofs < 0 then
        { ret := 0, ofs := max 0 (ofs + obj_size), end_ := (obj_size : Int) - 1 }
      else if 0 < obj_size ∧ (obj_size : Int) ≤ ofs then
        { ret := -34, ofs := ofs, end_ := if end_ < 0 then (obj_size : Int) - 1 else end_ }
      else if obj_size = 0 then
        { ret := 0, ofs := ofs, end_ := if end_ < 0 then -1 else end_ }
      else
        { ret := 0, ofs := ofs,
          end_ := if end_ < 0 then (obj_size : Int) - 1 else min end_ ((obj_size : Int) - 1) } := by
  unfold Object.range_to_ofs
  simp only [as_int64_size obj_size hsize, as_int64_size_pred obj_size hsize]
  by_cases hneg : ofs < 0
  · simp only [hneg, if_true, as_int64_add_size obj_size ofs hsize hlo hneg]
    by_cases hz : obj_size > 0
    · by_cases hs : ofs + (obj_size : Int) < 0
      · have hmax : max 0 (ofs + (obj_size : Int)) = 0 := by omega
        have h1 : ¬ ((0 : Int) ≥ obj_size) := by omega
        simp [hz, hs, hmax, h1]
      · have hmax : max 0 (ofs + (obj_size : Int)) = ofs + obj_size := by omega
        have h1 : ¬ (ofs + (obj_size : Int) ≥ obj_size) := by omega
        simp [hz, hs, hmax, h1]
    · have hz0 : obj_size = 0 := by omega
      subst hz0
      have hmax : max 0 ofs = 0 := by omega
      simp [hneg, hmax]
  · simp only [hneg, if_false]
    by_cases hz : obj_size > 0
    · by_cases hge : (obj_size : Int) ≤ ofs
      · by_cases he : end_ < 0 <;> simp [hz, hge, he, ERANGE]
      · have hz0 : obj_size ≠ 0 := by omega
        by_cases he : end_ < 0
        · simp [hz, hge, he, hz0]
        · by_cases hc : (obj_size : Int) ≤ end_
          · have hmin : min end_ ((obj_size : Int) - 1) = obj_size - 1 := by omega
            simp [hz, hge, he, hz0, hc, hmin]
          · have hmin : min end_ ((obj_size : Int) - 1) = end_ := by omega
            simp [hz, hge, he, hz0, hc, hmin]
    · have hz0 : obj_size = 0 := by omega
      subst hz0
      by_cases he : end_ < 0 <;> simp [he]

/-- C27: for an object size below 2^63 and any `int64_t` offset, `range_to_ofs` returns
`-ERANGE` exactly when `obj_size > 0`, the input `ofs` is non-negative and
`ofs >= obj_size`; it returns 0 for every negative `ofs` (a suffix range) and whenever
`obj_size = 0`, and it returns nothing but 0 and `-ERANGE`. -/
theorem range_to_ofs_erange_iff (obj_size : Nat) (ofs end_ : Int)
    (hsize : obj_size < 9223372036854775808)
    (hofs : -9223372036854775808 ≤ ofs ∧ ofs < 9223372036854775808) :
    ((Object.range_to_ofs obj_size ofs end_).ret = -(ERANGE : Int) ↔
      obj_size > 0 ∧ 0 ≤ ofs ∧ (obj_size : Int) ≤ ofs) ∧
    (ofs < 0 → (Object.range_to_ofs obj_size ofs end_).ret = 0) ∧
    (obj_size = 0 → (Object.range_to_ofs obj_size ofs end_).ret = 0) ∧
    ((Object.range_to_ofs obj_size ofs end_).ret = 0 ∨
      (Object.range_to_ofs obj_size ofs end_).ret = -(ERANGE : Int)) := by
  have heq := range_to_ofs_eq obj_size ofs end_ hsize hofs.1
  have hE : -(ERANGE : Int) = -34 := rfl
  rw [hE]
  by_cases hneg : ofs < 0
  · rw [if_pos hneg] at heq
    rw [heq]
    dsimp only
    exact ⟨⟨fun h => by omega, fun h => by omega⟩, fun _ => rfl, fun _ => rfl, Or.inl rfl⟩
  · rw [if_neg hneg] at heq
    by_cases hge : 0 < obj_size ∧ (obj_size : Int) ≤ ofs
    · rw [if_pos hge] at heq
      rw [heq]
      dsimp only
      exact ⟨⟨fun _ => ⟨hge.1, by omega, hge.2⟩, fun _ => rfl⟩, fun h => absurd h hneg,
        fun h => by omega, Or.inr rfl⟩
    · rw [if_neg hge] at heq
      by_cases hz : obj_size = 0
      · rw [if_pos hz] at heq
        rw [heq]
        dsimp only
        exact ⟨⟨fun h => by omega, fun h => by omega⟩, fun _ => rfl, fun _ => rfl,
          Or.inl rfl⟩
      · rw [if_neg hz] at heq
        rw [heq]
        dsimp only
        exact ⟨⟨fun h => by omega, fun h => absurd ⟨h.1, h.2.2⟩ hge⟩, fun _ => rfl,
          fun _ => rfl, Or.inl rfl⟩

/-- A range that starts past the end of a 10-byte object is refused; a suffix range and a
range in an empty object are accepted. -/
theorem range_to_ofs_erange_iff_witness :
    (Object.range_to_ofs 10 10 20).ret = -(ERANGE : Int) ∧
    (Object.range_to_ofs 10 (-3) 20).ret = 0 ∧
    (Object.range_to_ofs 0 5 20).ret = 0 :=
  ⟨(range_to_ofs_erange_iff 10 10 20 (by decide) (by decide)).1.2 (by decide),
   by decide, by decide⟩

/-- C28: for an object size below 2^63 and any `int64_t` offset: when `range_to_ofs`
returns 0 and `obj_size > 0`, the resulting range lies inside the object,
`0 <= ofs < obj_size` and `end <= obj_size - 1`. For a negative input `ofs` the result is
`ofs = max(0, obj_size + ofs)` and `end = obj_size - 1` whatever the input `end`; for a
non-negative input `ofs` the offset is unchanged, and when 0 is returned for
`obj_size > 0`, `end` is `obj_size - 1` if the input `end` is negative and
`min(end, obj_size - 1)` otherwise. -/
theorem range_to_ofs_result_inside (obj_size : Nat) (ofs end_ : Int)
    (hsize : obj_size < 9223372036854775808)
    (hofs : -9223372036854775808 ≤ ofs ∧ ofs < 9223372036854775808) :
    ((Object.range_to_ofs obj_size ofs end_).ret = 0 → obj_size > 0 →
      0 ≤ (Object.range_to_ofs obj_size ofs end_).ofs ∧
      (Object.range_to_ofs obj_size ofs end_).ofs < obj_size ∧
      (Object.range_to_ofs obj_size ofs end_).end_ ≤ (obj_size : Int) - 1) ∧
    (ofs < 0 →
      (Object.range_to_ofs obj_size ofs end_).ofs = max 0 ((obj_size : Int) + ofs) ∧
      (Object.range_to_ofs obj_size ofs end_).end_ = (obj_size : Int) - 1) ∧
    (0 ≤ ofs → (Object.range_to_ofs obj_size ofs end_).ofs = ofs) ∧
    (0 ≤ ofs → (Object.range_to_ofs obj_size ofs end_).ret = 0 → obj_size > 0 →
      (Object.range_to_ofs obj_size ofs end_).end_ =
        if end_ < 0 then (obj_size : Int) - 1 else min end_ ((obj_size : Int) - 1)) := by
  have heq := range_to_ofs_eq obj_size ofs end_ hsize hofs.1
  by_cases hneg : ofs < 0
  · rw [if_pos hneg] at heq
    rw [heq]
    dsimp only
    exact ⟨fun _ hz => ⟨by omega, by omega, le_refl _⟩, fun _ => ⟨by omega, rfl⟩,
      fun h => by omega, fun h => by omega⟩
  · rw [if_neg hneg] at heq
    by_cases hge : 0 < obj_size ∧ (obj_size : Int) ≤ ofs
    · rw [if_pos hge] at heq
      rw [heq]
      dsimp only
      exact ⟨fun h => by omega, fun h => absurd h hneg, fun _ => rfl, fun _ h => by omega⟩
    · rw [if_neg hge] at heq
      by_cases hz : obj_size = 0
      · rw [if_pos hz] at heq
        rw [heq]
        dsimp only
        exact ⟨fun _ h => by omega, fun h => absurd h hneg, fun _ => rfl,
          fun _ _ h => by omega⟩
      · rw [if_neg hz] at heq
        rw [heq]
        dsimp only
        refine ⟨fun _ hpos => ⟨by omega, by omega, ?_⟩, fun h => absurd h hneg, fun _ => rfl,
          fun _ _ _ => rfl⟩
        by_cases he : end_ < 0
        · rw [if_pos he]
        · rw [if_neg he]
          omega

/-- The last three bytes of a 10-byte object, and a range cut at the end of the object. -/
theorem range_to_ofs_result_inside_witness :
    Object.range_to_ofs 10 (-3) 4 = { ret := 0, ofs := 7, end_ := 9 } ∧
    Object.range_to_ofs 10 2 50 = { ret := 0, ofs := 2, end_ := 9 } ∧
    Object.range_to_ofs 10 2 (-1) = { ret := 0, ofs := 2, end_ := 9 } ∧
    Object.range_to_ofs 10 (-30) 4 = { ret := 0, ofs := 0, end_ := 9 } ∧
    (Object.range_to_ofs 10 (-3) 4).ofs < 10 :=
  ⟨by decide, by decide, by decide, by decide,
   ((range_to_ofs_result_inside 10 (-3) 4 (by decide) (by decide)).1 (by decide)
     (by decide)).2.1⟩

/-! ## Lookup of a user by access key -/

/-- The id the index gives for a key that has rows, all of them of one user. -/
theorem get_user_id_by_access_key_of_rows (db : Database) (k uid : std_string)
    (hex : ∃ r ∈ db.access_keys, r.access_key = k)
    (hall : ∀ r ∈ db.access_keys, r.access_key = k → r.user_id = uid) :
    SQLiteUsers._get_user_id_by_access_key db k = some uid := by
  cases hrows : db.access_keys.filter (fun row => sql_eq (some row.access_key) (some k)) with
  | nil =>
    obtain ⟨r, hr, hrk⟩ := hex
    have h := List.filter_eq_nil_iff.mp hrows r hr
    simp [sql_eq_some, hrk] at h
  | cons row rest =>
    have hmem : row ∈ db.access_keys.filter
        (fun row => sql_eq (some row.access_key) (some k)) := by simp [hrows]
    have hrow := List.mem_filter.mp hmem
    have hkey : row.access_key = k := by simpa [sql_eq_some] using hrow.2
    simp only [SQLiteUsers._get_user_id_by_access_key, hrows]
    rw [hall row hrow.1 hkey]

/-- The id the index gives for a key without a row. -/
theorem get_user_id_by_access_key_of_no_row (db : Database) (k : std_string)
    (h : ∀ r ∈ db.access_keys, r.access_key ≠ k) :
    SQLiteUsers._get_user_id_by_access_key db k = none := by
  have hrows : db.access_keys.filter
      (fun row => sql_eq (some row.access_key) (some k)) = [] := by
    rw [List.filter_eq_nil_iff]
    intro r hr
    simp [sql_eq_some, h r hr]
  simp only [SQLiteUsers._get_user_id_by_access_key, hrows]

/-- C22, counterexample: "bob" is stored with the key BOBKEY, then stored again without
it while the delete of his index rows fails, then "carol" is stored with BOBKEY. No
stored user but carol has BOBKEY in the record, yet the index still resolves BOBKEY to
"bob" and `get_user_by_access_key` returns the record of "bob", not what
`get_user("carol")` returns. -/
theorem get_user_by_access_key_stale_index :
    (run_statements (SQLiteUsers.store_user_statements sample_codecs sample_bob_without_key)
      (some 1) db_bob).1 = Outcome.throws Exception.sqlite_exception ∧
    db_carol.users.map (fun row => row.user_id) = [bytes "bob", bytes "carol"] ∧
    SQLiteUsers.get_user sample_codecs sample_binding sample_default_user db_carol
        (bytes "bob") = Outcome.ok (some sample_bob_without_key) ∧
    sample_bob_without_key.uinfo.access_keys = [] ∧
    SQLiteUsers.get_user sample_codecs sample_binding sample_default_user db_carol
        (bytes "carol") = Outcome.ok (some sample_carol) ∧
    sample_carol.uinfo.access_keys.map Prod.fst = [bytes "BOBKEY"] ∧
    db_carol.access_keys =
      [{ access_key := bytes "BOBKEY", user_id := bytes "bob" },
       { access_key := bytes "BOBKEY", user_id := bytes "carol" }] ∧
    SQLiteUsers.get_user_by_access_key sample_codecs sample_binding sample_default_user
        db_carol (bytes "BOBKEY") = Outcome.ok (some sample_bob_without_key) ∧
    SQLiteUsers.get_user_by_access_key sample_codecs sample_binding sample_default_user
        db_carol (bytes "BOBKEY") ≠
      SQLiteUsers.get_user sample_codecs sample_binding sample_default_user db_carol
        (bytes "carol") := by
  have hbob : SQLiteUsers.get_user sample_codecs sample_binding sample_default_user db_carol
      (bytes "bob") = Outcome.ok (some sample_bob_without_key) := rfl
  have hcarol : SQLiteUsers.get_user sample_codecs sample_binding sample_default_user
      db_carol (bytes "carol") = Outcome.ok (some sample_carol) := rfl
  have hkey : SQLiteUsers.get_user_by_access_key sample_codecs sample_binding
      sample_default_user db_carol (bytes "BOBKEY") =
        Outcome.ok (some sample_bob_without_key) := rfl
  refine ⟨by decide, by decide, hbob, rfl, hcarol, by decide, by decide, hkey, ?_⟩
  rw [hkey, hcarol]
  intro h
  have hid : sample_bob_without_key.uinfo.user_id.id = sample_carol.uinfo.user_id.id := by
    injection h with h
    injection h with h
    rw [h]
  exact absurd hid (by decide)

/-- C22, as amended: in the store after a `store_user(u)` whose statements all succeed,
for every access key `k` of `u.access_keys` such that every row of the `access_keys`
index for `k` carries the id of `u`, the index resolves `k` to the id of `u`, and
`get_user_by_access_key(k)` returns what `get_user(u.id)` returns. The same holds in
every later state in which the index holds a row for `k` and all its rows for `k` carry
the id of `u`. -/
theorem get_user_by_access_key_resolves {τ : RGWTypes} (cdc : UserCodecs τ)
    (binding : ColumnBinding τ) (dflt : DBOPUserInfo τ) (db : Database) (u : DBOPUserInfo τ)
    (k : std_string) (hk : k ∈ u.uinfo.access_keys.map Prod.fst)
    (hother : ∀ r ∈ (SQLiteUsers.store_user cdc db u).access_keys,
      r.access_key = k → r.user_id = u.uinfo.user_id.id) :
    SQLiteUsers._get_user_id_by_access_key (SQLiteUsers.store_user cdc db u) k =
      some u.uinfo.user_id.id ∧
    SQLiteUsers.get_user_by_access_key cdc binding dflt (SQLiteUsers.store_user cdc db u) k =
      SQLiteUsers.get_user cdc binding dflt (SQLiteUsers.store_user cdc db u)
        u.uinfo.user_id.id ∧
    (∀ later : Database, (∃ r ∈ later.access_keys, r.access_key = k) →
      (∀ r ∈ later.access_keys, r.access_key = k → r.user_id = u.uinfo.user_id.id) →
      SQLiteUsers.get_user_by_access_key cdc binding dflt later k =
        SQLiteUsers.get_user cdc binding dflt later u.uinfo.user_id.id) := by
  have hex : ∃ r ∈ (SQLiteUsers.store_user cdc db u).access_keys, r.access_key = k := by
    obtain ⟨key, hkey, hfst⟩ := List.mem_map.mp hk
    refine ⟨{ access_key := key.1, user_id := u.uinfo.user_id.id }, ?_, hfst⟩
    rw [store_user_eq]
    exact List.mem_append_right _ (List.mem_map.mpr ⟨key, hkey, rfl⟩)
  have hid := get_user_id_by_access_key_of_rows (SQLiteUsers.store_user cdc db u) k
    u.uinfo.user_id.id hex hother
  refine ⟨hid, ?_, ?_⟩
  · simp only [SQLiteUsers.get_user_by_access_key, hid, SQLiteUsers.get_user]
  · intro later hex2 hall2
    have hid2 := get_user_id_by_access_key_of_rows later k u.uinfo.user_id.id hex2 hall2
    simp only [SQLiteUsers.get_user_by_access_key, hid2, SQLiteUsers.get_user]

/-- After storing "alice" with the keys AKIA1 and AKIA2, the key AKIA2 leads to her
record. -/
theorem get_user_by_access_key_resolves_witness :
    bytes "AKIA2" ∈ sample_alice.uinfo.access_keys.map Prod.fst ∧
    (∀ r ∈ (SQLiteUsers.store_user sample_codecs db_users sample_alice).access_keys,
      r.access_key = bytes "AKIA2" → r.user_id = sample_alice.uinfo.user_id.id) ∧
    SQLiteUsers._get_user_id_by_access_key
        (SQLiteUsers.store_user sample_codecs db_users sample_alice) (bytes "AKIA2") =
      some (bytes "alice") ∧
    SQLiteUsers.get_user_by_access_key sample_codecs sample_binding sample_default_user
        (SQLiteUsers.store_user sample_codecs db_users sample_alice) (bytes "AKIA2") =
      SQLiteUsers.get_user sample_codecs sample_binding sample_default_user
        (SQLiteUsers.store_user sample_codecs db_users sample_alice) (bytes "alice") :=
  ⟨by decide, by decide, by decide,
   (get_user_by_access_key_resolves sample_codecs sample_binding sample_default_user db_users
      sample_alice (bytes "AKIA2") (by decide) (by decide)).2.1⟩

/-- C26: for an access key `k` without a row in the `access_keys` index,
`_get_user_id_by_access_key(k)` is the empty optional and `get_user_by_access_key(k)`
returns the empty optional, whatever rows the users table holds: the empty optional is
bound as NULL and the condition `user_id = NULL` holds for no row, also not for a row
whose `user_id` is the empty string. -/
theorem get_user_by_access_key_unknown_key {τ : RGWTypes} (cdc : UserCodecs τ)
    (binding : ColumnBinding τ) (dflt : DBOPUserInfo τ) (db : Database) (k : std_string)
    (h : ∀ r ∈ db.access_keys, r.access_key ≠ k) :
    SQLiteUsers._get_user_id_by_access_key db k = none ∧
    SQLiteUsers.get_user_by_access_key cdc binding dflt db k = Outcome.ok none ∧
    (∀ row : UsersRow, sql_eq (some row.user_id) (none : Option std_string) = false) := by
  have hid := get_user_id_by_access_key_of_no_row db k h
  refine ⟨hid, ?_, fun _ => rfl⟩
  have hrows : db.users.filter
      (fun row => sql_eq (some row.user_id) (none : Option std_string)) = [] := by
    rw [List.filter_eq_nil_iff]
    intro r _
    simp [sql_eq]
  simp only [SQLiteUsers.get_user_by_access_key, hid, GetSQLiteSingleObject, hrows]

/-- In a store that holds a user whose `user_id` is the empty string, the lookup of a key
the index does not hold returns nothing. -/
theorem get_user_by_access_key_unknown_key_witness :
    (∀ r ∈ db_users_with_unnamed.access_keys, r.access_key ≠ bytes "NOKEY") ∧
    (db_users_with_unnamed.users.filter (fun row => decide (row.user_id = []))).length = 1 ∧
    SQLiteUsers.get_user_by_access_key sample_codecs sample_binding sample_default_user
        db_users_with_unnamed (bytes "NOKEY") = Outcome.ok none :=
  ⟨by decide, by decide,
   (get_user_by_access_key_unknown_key sample_codecs sample_binding sample_default_user
      db_users_with_unnamed (bytes "NOKEY") (by decide)).2.1⟩

/-! ## Storing an object -/

theorem store_object_objects (unique_name : Bool) (db : Database) (o : DBObject) :
    (SQLiteObjects.store_object unique_name db o).objects =
      db.objects.filter (fun r =>
        !(decide (r.1 = o.uuid) ||
          (unique_name && (decide (r.2.1 = o.bucket_id) && decide (r.2.2 = o.name))))) ++
        [(o.uuid, o.bucket_id, o.name)] :=
  rfl

/-- C21: `store_object` replaces: whatever the objects table held, and whether or not the
table declares (bucket_id, name) unique, after `store_object(o)` exactly one row has the
uuid of `o`, `get_object(o.uuid)` returns the record with the uuid, bucket id and name of
`o` (the text form of identifiers is one-to-one), and the rows with another uuid and
another (bucket_id, name) pair are the same rows in the same order as before. -/
theorem store_object_replace_semantics (uuid_to_string : uuid_d → std_string)
    (hinj : Function.Injective uuid_to_string) (unique_name : Bool) (db : Database)
    (o : DBObject) :
    ((SQLiteObjects.store_object unique_name db o).objects.filter
        (fun row => decide (row.1 = o.uuid))).length = 1 ∧
    SQLiteObjects.get_object uuid_to_string (SQLiteObjects.store_object unique_name db o)
        o.uuid = Outcome.ok (some o) ∧
    (∀ row : DBObjectQueryResult, row.1 ≠ o.uuid →
      (row.2.1, row.2.2) ≠ (o.bucket_id, o.name) →
      (row ∈ (SQLiteObjects.store_object unique_name db o).objects ↔ row ∈ db.objects)) ∧
    (SQLiteObjects.store_object unique_name db o).objects.filter
        (fun row => decide (row.1 ≠ o.uuid) &&
          decide ((row.2.1, row.2.2) ≠ (o.bucket_id, o.name))) =
      db.objects.filter
        (fun row => decide (row.1 ≠ o.uuid) &&
          decide ((row.2.1, row.2.2) ≠ (o.bucket_id, o.name))) := by
  have hobjs := store_object_objects unique_name db o
  have hkept : (db.objects.filter (fun r =>
        !(decide (r.1 = o.uuid) ||
          (unique_name && (decide (r.2.1 = o.bucket_id) && decide (r.2.2 = o.name)))))).filter
        (fun row => decide (row.1 = o.uuid)) = [] := by
    rw [List.filter_eq_nil_iff]
    intro r hr
    have h := (List.mem_filter.mp hr).2
    simp only [Bool.not_eq_true', Bool.or_eq_false_iff, decide_eq_false_iff_not] at h
    simpa using h.1
  have huuid : ((SQLiteObjects.store_object unique_name db o).objects.filter
      (fun row => decide (row.1 = o.uuid))) = [(o.uuid, o.bucket_id, o.name)] := by
    rw [hobjs, List.filter_append, hkept]
    simp
  refine ⟨by rw [huuid]; rfl, ?_, ?_, ?_⟩
  · have hpred : (fun row : DBObjectQueryResult =>
        sql_eq (some (uuid_to_string row.1)) (some (uuid_to_string o.uuid))) =
        (fun row => decide (row.1 = o.uuid)) := by
      funext row
      rw [sql_eq_some]
      by_cases h : row.1 = o.uuid
      · simp [h]
      · have h2 : uuid_to_string row.1 ≠ uuid_to_string o.uuid := fun e => h (hinj e)
        simp [h, h2]
    simp only [SQLiteObjects.get_object, GetSQLiteSingleObject, hpred, huuid]
    rfl
  · intro row hu hp
    rw [hobjs, List.mem_append, List.mem_filter]
    constructor
    · intro h
      rcases h with h | h
      · exact h.1
      · rw [List.mem_singleton] at h
        exact absurd (congrArg Prod.fst h) hu
    · intro h
      refine Or.inl ⟨h, ?_⟩
      have hp2 : ¬ (row.2.1 = o.bucket_id ∧ row.2.2 = o.name) := by
        intro e
        exact hp (Prod.ext e.1 e.2)
      simp [hu]
      by_cases e1 : row.2.1 = o.bucket_id
      · exact Or.inr (Or.inr (fun e2 => hp2 ⟨e1, e2⟩))
      · exact Or.inr (Or.inl e1)
  · rw [hobjs, List.filter_append, List.filter_filter]
    have hnew : [(o.uuid, o.bucket_id, o.name)].filter
        (fun row : DBObjectQueryResult => decide (row.1 ≠ o.uuid) &&
          decide ((row.2.1, row.2.2) ≠ (o.bucket_id, o.name))) = [] := by
      simp
    rw [hnew, List.append_nil]
    apply List.filter_congr
    intro row _
    by_cases hu : row.1 = o.uuid
    · simp [hu]
    · by_cases hb : row.2.1 = o.bucket_id
      · by_cases hn : row.2.2 = o.name
        · simp [hu, hb, hn]
        · simp [hu, hb, hn]
      · simp [hu, hb]

/-- Storing the object (2, "testbucket", "ccc") in the five objects of `db_five`, where
the row of uuid 2 is named "bbb" and the name "ccc" belongs to the row of uuid 3: with the
pair declared unique both rows give way to the new one, the other rows stay. -/
theorem store_object_replace_semantics_witness :
    Function.Injective sample_uuid_to_string ∧
    (SQLiteObjects.store_object true db_five
        { uuid := ⟨2⟩, bucket_id := bytes "testbucket", name := bytes "ccc" }).objects =
      [(⟨1⟩, bytes "testbucket", bytes "aaa"), (⟨5⟩, bytes "testbucket", bytes "eee"),
       (⟨9⟩, bytes "other", bytes "zzz"), (⟨4⟩, bytes "testbucket", bytes "ddd"),
       (⟨2⟩, bytes "testbucket", bytes "ccc")] ∧
    (SQLiteObjects.store_object false db_five
        { uuid := ⟨2⟩, bucket_id := bytes "testbucket", name := bytes "ccc" }).objects =
      [(⟨3⟩, bytes "testbucket", bytes "ccc"), (⟨1⟩, bytes "testbucket", bytes "aaa"),
       (⟨5⟩, bytes "testbucket", bytes "eee"), (⟨9⟩, bytes "other", bytes "zzz"),
       (⟨4⟩, bytes "testbucket", bytes "ddd"), (⟨2⟩, bytes "testbucket", bytes "ccc")] ∧
    SQLiteObjects.get_object sample_uuid_to_string
        (SQLiteObjects.store_object true db_five
          { uuid := ⟨2⟩, bucket_id := bytes "testbucket", name := bytes "ccc" }) ⟨2⟩ =
      Outcome.ok (some { uuid := ⟨2⟩, bucket_id := bytes "testbucket", name := bytes "ccc" }) :=
  have hinj : Function.Injective sample_uuid_to_string := by
    intro a b h
    have hlen := congrArg List.length h
    simp only [sample_uuid_to_string, List.length_replicate] at hlen
    cases a
    cases b
    simp only at hlen
    rw [hlen]
  ⟨hinj, by decide, by decide,
   (store_object_replace_semantics sample_uuid_to_string hinj true db_five
      { uuid := ⟨2⟩, bucket_id := bytes "testbucket", name := bytes "ccc" }).2.1⟩

end sfs
